import Mathlib

/-!
# kitex: per-call options (`client/callopt/options.go`)

A shallow embedding of the call-option pipeline.  Go pointers are replaced by
explicit state passing: an option effect takes the `callOptions` control block
and the diagnostic buffer and returns both, together with the value it
panicked with, if any.  Interface values that may be `nil` are `Option`s, and
a method call on `nil` is a runtime panic.

Collaborators that are not part of `options.go` (the Go `net` resolvers, the
integer printer, the tag-key and weight constants of other packages) are
fields of `Env`.
-/

namespace callopt

/-! ## Data model -/

/-- Go `time.Duration`: a signed number of nanoseconds. -/
abbrev Duration := Int

/-- Go `time.Millisecond`. -/
def Millisecond : Duration := 1000000

/-- Go `time.Second`. -/
def Second : Duration := 1000 * Millisecond

/-- Go `Duration.Milliseconds`: `int64(d) / 1e6`, truncating toward zero. -/
def Milliseconds (d : Duration) : Int := Int.tdiv d 1000000

/-- Modelled from the spec: `discovery.Instance` (pkg/discovery is not under
src/), the record `{network, address, weight, tags}` of spec section 3. -/
structure Instance where
  network : String
  address : String
  weight : Nat
  tags : List (String × String)
  deriving DecidableEq, Repr

/-- Modelled from the spec: `discovery.NewInstance` builds the record from its
four arguments (a nil tag map is the empty map). -/
def NewInstance (network address : String) (weight : Nat)
    (tags : List (String × String)) : Instance :=
  { network := network, address := address, weight := weight, tags := tags }

/-- Interaction mode of a call (spec section 3). -/
inductive InteractionMode
  | PingPong
  | Oneway
  | Streaming
  deriving DecidableEq, Repr

/-- Modelled from the spec: `rpcinfo.RPCConfig` with its mutable view
(pkg/rpcinfo is not under src/).  The three timeouts and the interaction mode
are the fields of spec section 3; `pinned` is the authoritative record of the
lock bits that `ApplyLocks` has written back. -/
structure RPCConfig where
  rpcTimeout : Duration
  connectTimeout : Duration
  readWriteTimeout : Duration
  interactionMode : InteractionMode
  pinned : Nat
  deriving DecidableEq, Repr

/-- Modelled from the spec: `MutableRPCConfig.SetRPCTimeout` sets `rpc_timeout`. -/
def RPCConfig.SetRPCTimeout (c : RPCConfig) (d : Duration) : RPCConfig :=
  { c with rpcTimeout := d }

/-- Modelled from the spec: `MutableRPCConfig.SetConnectTimeout` sets
`connect_timeout`. -/
def RPCConfig.SetConnectTimeout (c : RPCConfig) (d : Duration) : RPCConfig :=
  { c with connectTimeout := d }

/-- Modelled from the spec: `MutableRPCConfig.SetReadWriteTimeout` sets
`read_write_timeout`. -/
def RPCConfig.SetReadWriteTimeout (c : RPCConfig) (d : Duration) : RPCConfig :=
  { c with readWriteTimeout := d }

/-- Modelled from the spec: `remoteinfo.RemoteInfo` (pkg/rpcinfo/remoteinfo is
not under src/), the mutable endpoint exposing `set_instance` and `set_tag`.
`inst` is the forced instance, `tags` the tag map, and `pinnedTags` the
authoritative record of the tag keys that `ApplyLocks` has written back. -/
structure RemoteInfo where
  inst : Option Instance
  tags : String → Option String
  pinnedTags : Finset String

/-- Modelled from the spec: `RemoteInfo.SetInstance` installs the instance. -/
def RemoteInfo.SetInstance (r : RemoteInfo) (i : Instance) : RemoteInfo :=
  { r with inst := some i }

/-- Modelled from the spec: `RemoteInfo.SetTag` binds `key` to `val` in the
tag map. -/
def RemoteInfo.SetTag (r : RemoteInfo) (key val : String) : RemoteInfo :=
  { r with tags := fun k => if k = key then some val else r.tags k }

/-- Modelled from the spec: the lock bit of `rpc_timeout` (the constants of
pkg/rpcinfo are not under src/).  Spec section 3 makes `bits` a bitmask over
`{RPCTimeout, ConnectTimeout, ReadWriteTimeout, …}`: one bit per field, taken
here in the order listed. -/
def BitRPCTimeout : Nat := 1 <<< 0

/-- Modelled from the spec: the lock bit of `connect_timeout`. -/
def BitConnectTimeout : Nat := 1 <<< 1

/-- Modelled from the spec: the lock bit of `read_write_timeout`. -/
def BitReadWriteTimeout : Nat := 1 <<< 2

/-- Modelled from the spec: `configutil.ConfigLocks` (internal/configutil is
not under src/), `{bits, tags}` of spec section 3. -/
structure ConfigLocks where
  Bits : Nat
  Tags : Finset String
  deriving DecidableEq

/-- Modelled from the spec: `ConfigLocks.Merge` is set-union, on the bits and
on the tags. -/
def ConfigLocks.Merge (cl c2 : ConfigLocks) : ConfigLocks :=
  { Bits := cl.Bits ||| c2.Bits, Tags := cl.Tags ∪ c2.Tags }

/-- Modelled from the spec: `ConfigLocks.Zero` clears the lock set in place
(spec section 5: it "is reused, not reallocated"). -/
def ConfigLocks.Zero (_cl : ConfigLocks) : ConfigLocks :=
  { Bits := 0, Tags := ∅ }

/-- Modelled from the spec: `ConfigLocks.ApplyLocks(cfg, svr)` "walks the
bit/tag set and writes back the locked values into authoritative storage":
every bit is recorded as pinned on the RPCConfig and every tag key as pinned
on the RemoteInfo; the values the options installed are left as they are. -/
def ConfigLocks.ApplyLocks (cl : ConfigLocks) (cfg : RPCConfig) (svr : RemoteInfo) :
    RPCConfig × RemoteInfo :=
  ({ cfg with pinned := cfg.pinned ||| cl.Bits },
   { svr with pinnedTags := svr.pinnedTags ∪ cl.Tags })

/-- The bit `bit` is set in the lock set. -/
def ConfigLocks.isLocked (cl : ConfigLocks) (bit : Nat) : Prop :=
  cl.Bits &&& bit = bit

instance (cl : ConfigLocks) (bit : Nat) : Decidable (cl.isLocked bit) := by
  unfold ConfigLocks.isLocked; infer_instance

/-- Go `http.Resolver`: `Resolve(url)` returns a hostport or an error. -/
abbrev Resolver := String → Except String String

/-- Collaborators of `options.go` that live outside it.
* `ResolveTCPAddr network address` / `ResolveUnixAddr network address`: whether
  Go's `net.ResolveTCPAddr` / `net.ResolveUnixAddr` return a nil error;
* `DefaultWeight`: `discovery.DefaultWeight`;
* `HTTPURL`, `HTTPHost`: the tag keys `rpcinfo.HTTPURL`, `rpcinfo.HTTPHost`;
* `WriteInt64 v`: the text `utils.WriteInt64ToStringBuilder` appends for `v`. -/
structure Env where
  ResolveTCPAddr : String → String → Bool
  ResolveUnixAddr : String → String → Bool
  DefaultWeight : Nat
  HTTPURL : String
  HTTPHost : String
  WriteInt64 : Int → String

/-- Go `net.ResolveUnixAddr` (standard library): the address is taken as is,
the error is non-nil only for a network other than the three unix ones. -/
def goResolveUnixAddr (network _address : String) : Bool :=
  network == "unix" || network == "unixgram" || network == "unixpacket"

/-- The `callOptions` control block. -/
structure callOptions where
  configs : Option RPCConfig
  svr : Option RemoteInfo
  locks : ConfigLocks
  httpResolver : Option Resolver

/-- The block `newOptions` allocates: only `locks` is set, with an empty tag
map. -/
def newOptions : callOptions :=
  { configs := none, svr := none, locks := { Bits := 0, Tags := ∅ }, httpResolver := none }

/-- The method `callOptions.zero`. -/
def callOptions.zero (co : callOptions) : callOptions :=
  { co with configs := none, svr := none, locks := co.locks.Zero }

/-- The method `callOptions.Recycle`: the zeroed block is what goes back to
the pool. -/
def callOptions.Recycle (co : callOptions) : callOptions :=
  co.zero

/-- Outcome of a Go function returning `error`. -/
inductive Outcome (α : Type)
  | ok (a : α)
  | error (msg : String)
  | panic (msg : String)

/-- State after running an option effect: the control block, the diagnostic
buffer, and the value the effect panicked with (`none` when it returned). -/
structure Effect where
  co : callOptions
  di : String
  panic : Option String

/-- The type `Option` of the package: it wraps the effect `f`. -/
structure CallOption where
  f : callOptions → String → Effect

/-- The Go runtime's message for a method call on a nil interface. -/
def nilDeref : String := "runtime error: invalid memory address or nil pointer dereference"

/-! ## The options -/

/-- The function `setInstance`. -/
def setInstance (env : Env) (svr : Option RemoteInfo) (hostport : String) :
    Outcome RemoteInfo :=
  if env.ResolveTCPAddr "tcp" hostport then
    match svr with
    | some s => .ok (s.SetInstance (NewInstance "tcp" hostport env.DefaultWeight []))
    | none => .panic nilDeref
  else if env.ResolveUnixAddr "unix" hostport then
    match svr with
    | some s => .ok (s.SetInstance (NewInstance "unix" hostport env.DefaultWeight []))
    | none => .panic nilDeref
  else
    .error ("invalid '" ++ hostport ++ "'")

/-- The option `WithHostPort`. -/
def WithHostPort (env : Env) (hostport : String) : CallOption :=
  ⟨fun o di =>
    let di := di ++ "WithHostPort("
    let di := di ++ hostport
    let di := di ++ "),"
    match setInstance env o.svr hostport with
    | .ok s => ⟨{ o with svr := some s }, di, none⟩
    | .error err => ⟨o, di, some ("WithHostPort: " ++ err)⟩
    | .panic p => ⟨o, di, some p⟩⟩

/-- The option `WithURL`. -/
def WithURL (env : Env) (url : String) : CallOption :=
  ⟨fun o di =>
    let di := di ++ "WithURL("
    let di := di ++ url
    let di := di ++ "),"
    match o.svr with
    | none => ⟨o, di, some nilDeref⟩
    | some s =>
      let o := { o with svr := some (s.SetTag env.HTTPURL url) }
      match o.httpResolver with
      | none => ⟨o, di, some nilDeref⟩
      | some r =>
        match r url with
        | .error err => ⟨o, di, some ("http resolve failed: " ++ err)⟩
        | .ok hostport =>
          match setInstance env o.svr hostport with
          | .ok s => ⟨{ o with svr := some s }, di, none⟩
          | .error err => ⟨o, di, some ("WithURL: " ++ err)⟩
          | .panic p => ⟨o, di, some p⟩⟩

/-- The option `WithHTTPHost`. -/
def WithHTTPHost (env : Env) (host : String) : CallOption :=
  ⟨fun o di =>
    match o.svr with
    | none => ⟨o, di, some nilDeref⟩
    | some s => ⟨{ o with svr := some (s.SetTag env.HTTPHost host) }, di, none⟩⟩

/-- The option `WithRPCTimeout`. -/
def WithRPCTimeout (env : Env) (d : Duration) : CallOption :=
  ⟨fun o di =>
    let di := di ++ "WithRPCTimeout("
    let di := di ++ env.WriteInt64 (Milliseconds d)
    let di := di ++ "ms)"
    match o.configs with
    | none => ⟨o, di, some nilDeref⟩
    | some cfg =>
      let cfg := cfg.SetRPCTimeout d
      let locks := { o.locks with Bits := o.locks.Bits ||| BitRPCTimeout }
      let cfg := cfg.SetReadWriteTimeout d
      let locks := { locks with Bits := locks.Bits ||| BitReadWriteTimeout }
      ⟨{ o with configs := some cfg, locks := locks }, di, none⟩⟩

/-- The option `WithConnectTimeout`. -/
def WithConnectTimeout (env : Env) (d : Duration) : CallOption :=
  ⟨fun o di =>
    let di := di ++ "WithConnectTimeout("
    let di := di ++ env.WriteInt64 (Milliseconds d)
    let di := di ++ "ms)"
    match o.configs with
    | none => ⟨o, di, some nilDeref⟩
    | some cfg =>
      let cfg := cfg.SetConnectTimeout d
      ⟨{ o with configs := some cfg,
                locks := { o.locks with Bits := o.locks.Bits ||| BitConnectTimeout } },
        di, none⟩⟩

/-- The function `lockTargetTag`. -/
def lockTargetTag (opt key val : String) : CallOption :=
  ⟨fun o di =>
    let di := di ++ opt
    let di := di ++ "("
    let di := di ++ val
    let di := di ++ ")"
    match o.svr with
    | none => ⟨o, di, some nilDeref⟩
    | some s =>
      ⟨{ o with svr := some (s.SetTag key val),
                locks := { o.locks with Tags := insert key o.locks.Tags } },
        di, none⟩⟩

/-- The option `WithCluster`. -/
def WithCluster (cluster : String) : CallOption :=
  lockTargetTag "WithCluster" "cluster" cluster

/-- The option `WithIDC`. -/
def WithIDC (idc : String) : CallOption :=
  lockTargetTag "WithIDC" "idc" idc

/-! ## Apply -/

/-- The loop of `Apply` from index `i` on: a `,` before every option but the
first, then the option's effect; a panic ends the loop. -/
def applyLoop : List CallOption → Nat → callOptions → String → Effect
  | [], _, co, buf => ⟨co, buf, none⟩
  | o :: rest, i, co, buf =>
    let buf := if i > 0 then buf ++ "," else buf
    let r := o.f co buf
    match r.panic with
    | some p => ⟨r.co, r.di, some p⟩
    | none => applyLoop rest (i + 1) r.co r.di

/-- What a returning `Apply` leaves behind: the returned string, the RPCConfig
and RemoteInfo objects the caller passed in (as mutated), the lock set on which
`ApplyLocks` was invoked, and the block put back into the pool. -/
structure Applied where
  diag : String
  cfg : RPCConfig
  svr : RemoteInfo
  locks : ConfigLocks
  recycled : callOptions

/-- Result of `Apply`: it returns, or an option effect panicked (the block and
buffer are given as they were at the panic). -/
inductive ApplyResult
  | returned (r : Applied)
  | panicked (p : String) (co : callOptions) (buf : String)

/-- Step 1 of `Apply`: the block drawn from the pool with `cfg`, `svr` and the
resolver installed and the inherited locks merged into its own. -/
def install (cfg : RPCConfig) (svr : RemoteInfo) (locks : ConfigLocks)
    (httpResolver : Resolver) (pooled : callOptions) : callOptions :=
  { configs := some cfg, svr := some svr,
    locks := pooled.locks.Merge locks, httpResolver := some httpResolver }

/-- The function `Apply`.  `pooled` is the block `callOptionsPool.Get` hands
out.  `cfg` and `svr` are the objects `co.configs` and `co.svr` point to, so
after the loop their state is read from the block. -/
def Apply (cos : List CallOption) (cfg : RPCConfig) (svr : RemoteInfo)
    (locks : ConfigLocks) (httpResolver : Resolver) (pooled : callOptions) : ApplyResult :=
  let co := install cfg svr locks httpResolver pooled
  let buf := "" ++ "["
  let r := applyLoop cos 0 co buf
  match r.panic with
  | some p => .panicked p r.co r.di
  | none =>
    let buf := r.di ++ "]"
    let co := r.co
    let applied := co.locks.ApplyLocks (co.configs.getD cfg) (co.svr.getD svr)
    .returned
      { diag := buf, cfg := applied.1, svr := applied.2, locks := co.locks,
        recycled := co.Recycle }

/-- The string `Apply` returns, `none` when it panics. -/
def ApplyResult.diag? : ApplyResult → Option String
  | .returned r => some r.diag
  | .panicked _ _ _ => none

/-! ## Option expressions and sample data -/

/-- The exported constructors of option values, as data. -/
inductive OptionExpr
  | WithHostPort (hostport : String)
  | WithURL (url : String)
  | WithHTTPHost (host : String)
  | WithRPCTimeout (d : Duration)
  | WithConnectTimeout (d : Duration)
  | WithCluster (cluster : String)
  | WithIDC (idc : String)
  deriving DecidableEq

/-- The option value an expression denotes. -/
def OptionExpr.build (env : Env) : OptionExpr → CallOption
  | .WithHostPort hostport => callopt.WithHostPort env hostport
  | .WithURL url => callopt.WithURL env url
  | .WithHTTPHost host => callopt.WithHTTPHost env host
  | .WithRPCTimeout d => callopt.WithRPCTimeout env d
  | .WithConnectTimeout d => callopt.WithConnectTimeout env d
  | .WithCluster cluster => callopt.WithCluster cluster
  | .WithIDC idc => callopt.WithIDC idc

/-- Run from block `co`, the options complete without panicking and the i-th
one appends exactly `ts[i]` to whatever buffer it is handed. -/
def AppendsTraces : List CallOption → callOptions → List String → Prop
  | [], _, [] => True
  | o :: rest, co, t :: ts =>
    ∀ di, (o.f co di).panic = none ∧ (o.f co di).di = di ++ t ∧
      AppendsTraces rest (o.f co di).co ts
  | _, _, _ => False

/-- The duration of the last `WithRPCTimeout` of the sequence, `none` when it
has none. -/
def lastRPCTimeout : List OptionExpr → Option Duration
  | [] => none
  | e :: es =>
    match lastRPCTimeout es with
    | some d => some d
    | none =>
      match e with
      | .WithRPCTimeout d => some d
      | _ => none

/-- Every text preceded by a comma, concatenated. -/
def commaAll : List String → String
  | [] => ""
  | t :: ts => "," ++ t ++ commaAll ts

/-- The RPCConfig an option leaves, given the one it found. -/
def stepConfig (cfg : RPCConfig) : OptionExpr → RPCConfig
  | .WithRPCTimeout d => { cfg with rpcTimeout := d, readWriteTimeout := d }
  | .WithConnectTimeout d => { cfg with connectTimeout := d }
  | _ => cfg

/-- The lock bits an option leaves, given the ones it found. -/
def stepBits (bits : Nat) : OptionExpr → Nat
  | .WithRPCTimeout _ => bits ||| BitRPCTimeout ||| BitReadWriteTimeout
  | .WithConnectTimeout _ => bits ||| BitConnectTimeout
  | _ => bits

/-- A concrete environment for evaluation: TCP resolution knows the literal
loopback address `127.0.0.1:8080` only, unix resolution is Go's, integers are
printed in decimal. -/
def sampleEnv : Env :=
  { ResolveTCPAddr := fun network address => network == "tcp" && address == "127.0.0.1:8080"
    ResolveUnixAddr := goResolveUnixAddr
    DefaultWeight := 10
    HTTPURL := "http_url"
    HTTPHost := "http_host"
    WriteInt64 := fun v => toString v }

/-- An environment whose resolvers both reject every address. -/
def rejectingEnv : Env :=
  { sampleEnv with
    ResolveTCPAddr := fun _ _ => false
    ResolveUnixAddr := fun _ _ => false }

/-- A client-default RPCConfig. -/
def sampleConfig : RPCConfig :=
  { rpcTimeout := 0, connectTimeout := 50 * Millisecond, readWriteTimeout := 5 * Second,
    interactionMode := .PingPong, pinned := 0 }

/-- A RemoteInfo with no instance and no tags. -/
def sampleRemote : RemoteInfo :=
  { inst := none, tags := fun _ => none, pinnedTags := ∅ }

/-- An empty lock set. -/
def noLocks : ConfigLocks := { Bits := 0, Tags := ∅ }

/-- A resolver that knows one url. -/
def sampleResolver : Resolver := fun url =>
  if url = "http://svc.local/api" then .ok "127.0.0.1:8080" else .error "no such host"

/-- A lock set inherited from the client: the connect timeout and the tag
`idc` are pinned. -/
def inheritedLocks : ConfigLocks := { Bits := BitConnectTimeout, Tags := {"idc"} }

/-- The lock bits an option pins, after the table of spec section 4.C. -/
def OptionExpr.lockBits : OptionExpr → Nat
  | .WithRPCTimeout _ => BitRPCTimeout ||| BitReadWriteTimeout
  | .WithConnectTimeout _ => BitConnectTimeout
  | _ => 0

/-- The tag keys an option pins, after the table of spec section 4.C. -/
def OptionExpr.lockTags : OptionExpr → Finset String
  | .WithCluster _ => {"cluster"}
  | .WithIDC _ => {"idc"}
  | _ => ∅

/-- Union of the lock bits pinned by the options of a sequence. -/
def optionBits : List OptionExpr → Nat
  | [] => 0
  | e :: es => e.lockBits ||| optionBits es

/-- Union of the tag keys pinned by the options of a sequence. -/
def optionTags : List OptionExpr → Finset String
  | [] => ∅
  | e :: es => e.lockTags ∪ optionTags es

end callopt

/-! # Shared collaborators of the connection and transport layers -/

namespace kerrors

/-- Modelled from the spec: the error values of pkg/kerrors (not under src/),
after the taxonomy of spec section 7: a kind, optionally carrying a cause.
`other` stands for any error born outside the framework (pool, dialer, codec). -/
inductive KError
  | other (msg : String)
  | ErrNoDestAddress
  | ErrGetConnection
  | ErrRPCTimeout
  | ErrACL
  | withCause (kind cause : KError)
  deriving DecidableEq, Repr

/-- Modelled from the spec: `kind.WithCause(cause)` attaches the cause to the
kind. -/
def KError.WithCause (kind cause : KError) : KError := .withCause kind cause

/-- Modelled from the spec: Go `errors.Is(e, target)` on these errors: `e` is
the target, or it is a kind with a cause and its kind or its cause chain
matches ("exposes both a kind and a cause chain", spec section 7). -/
def KError.Is (e target : KError) : Bool :=
  e == target ||
    match e with
    | .withCause kind cause => kind.Is target || cause.Is target
    | _ => false

end kerrors

namespace stats

/-- Modelled from the spec: the stats events named in conn_wrapper.go and
default_client_handler.go (pkg/stats is not under src/). -/
inductive Event
  | ClientConnStart
  | ClientConnFinish
  | WriteStart
  | WriteFinish
  | ReadStart
  | ReadFinish
  deriving DecidableEq, Repr

/-- Modelled from the spec: the status of a stats record. -/
inductive Status
  | StatusInfo
  | StatusError
  deriving DecidableEq, Repr

end stats

namespace rpcinfo

/-- Go `net.Addr`: `Network()` and `String()`. -/
structure Addr where
  Network : String
  Str : String
  deriving DecidableEq, Repr

/-- Modelled from the spec: the peer half `ri.To()` of an RPCInfo (pkg/rpcinfo
is not under src/), as far as the connection and transport layers read it:
`Address()` (nil when absent), `Tag(key)` and `Method()`. -/
structure EndpointInfo where
  Address : Option Addr
  Tag : String → Option String
  Method : String

/-- Modelled from the spec: `rpcinfo.RPCInfo`, reduced to `Config()` and
`To()`; what `Stats().Record` receives is appended to the event trace. -/
structure RPCInfo where
  Config : callopt.RPCConfig
  To : EndpointInfo

end rpcinfo

namespace remote

open kerrors

/-- Go `net.Conn` values.  A `long` connection implements `remote.RawConn`,
its `RawConn()` being `raw`; a `plain` one does not. -/
inductive Conn
  | plain (id : Nat)
  | long (id : Nat) (raw : Conn)
  deriving DecidableEq, Repr

/-- The interface `remote.Dialer`: `DialTimeout(network, address, timeout)`
returns a connection (possibly nil) and an error (possibly nil). -/
abbrev Dialer := String → String → callopt.Duration → Option Conn × Option KError

/-- The struct `remote.ConnOption`. -/
structure ConnOption where
  Dialer : Dialer
  ConnectTimeout : callopt.Duration

/-- The interface `remote.ConnPool`: what `Get(ctx, network, address, opt)`
returns.  `Put` and `Discard` return an error nobody reads; the calls
themselves are events of the trace. -/
structure ConnPool where
  Get : String → String → ConnOption → Option Conn × Option KError

end remote

namespace connpool

end connpool

/-! # The connection wrapper (`pkg/remote/remotecli/conn_wrapper.go`) -/

namespace remotecli

open kerrors remote rpcinfo

/-- What a call on the wrapper does to its collaborators, in order.
`Record` is `ri.Stats().Record(ctx, event, status, info)` with `info` the empty
string (`none`) or `err.Error()` (`some err`). -/
inductive Event
  | Record (event : stats.Event) (status : stats.Status) (info : Option KError)
  | PoolGet (network address : String) (timeout : callopt.Duration)
  | DialTimeout (network address : String) (timeout : callopt.Duration)
  | Put (conn : Conn)
  | Discard (conn : Conn)
  | Close (conn : Conn)
  | Debugf (msg : String)
  deriving DecidableEq, Repr

/-- The struct `ConnWrapper`; its logger only ever receives `Debugf`, which is
an event of the trace. -/
structure ConnWrapper where
  connPool : Option ConnPool
  conn : Option Conn

/-- The function `newConnWrapper`. -/
def newConnWrapper : ConnWrapper := { connPool := none, conn := none }

/-- The function `NewConnWrapper`, on the wrapper `connWrapperPool.Get` hands
out. -/
def NewConnWrapper (pooled : ConnWrapper) (connPool : Option ConnPool) : ConnWrapper :=
  { pooled with connPool := connPool }

/-- The method `ConnWrapper.zero`. -/
def ConnWrapper.zero (_cm : ConnWrapper) : ConnWrapper :=
  { connPool := none, conn := none }

/-- What `getConnWithPool`, `getConnWithDialer` and `GetConn` hand back: the
wrapper, the trace, and the returned pair. -/
structure GetConnResult where
  cm : ConnWrapper
  trace : List Event
  conn : Option Conn
  err : Option KError

/-- The method `getConnWithPool`. -/
def getConnWithPool (cm : ConnWrapper) (cp : ConnPool) (d : Dialer)
    (timeout : callopt.Duration) (ri : RPCInfo) (trace : List Event) : GetConnResult :=
  match ri.To.Address with
  | none => ⟨cm, trace, none, some KError.ErrNoDestAddress⟩
  | some addr =>
    let opt : ConnOption := { Dialer := d, ConnectTimeout := timeout }
    let trace := trace ++ [Event.Record .ClientConnStart .StatusInfo none]
    let trace := trace ++ [Event.PoolGet addr.Network addr.Str timeout]
    match cp.Get addr.Network addr.Str opt with
    | (_, some err) =>
      let trace := trace ++ [Event.Record .ClientConnFinish .StatusError (some err)]
      ⟨cm, trace, none, some (KError.ErrGetConnection.WithCause err)⟩
    | (longConn, none) =>
      let trace := trace ++ [Event.Record .ClientConnFinish .StatusInfo none]
      ⟨cm, trace, longConn, none⟩

/-- The method `getConnWithDialer`. -/
def getConnWithDialer (cm : ConnWrapper) (d : Dialer)
    (timeout : callopt.Duration) (ri : RPCInfo) (trace : List Event) : GetConnResult :=
  match ri.To.Address with
  | none => ⟨cm, trace, none, some KError.ErrNoDestAddress⟩
  | some addr =>
    let trace := trace ++ [Event.Record .ClientConnStart .StatusInfo none]
    let trace := trace ++ [Event.DialTimeout addr.Network addr.Str timeout]
    match d addr.Network addr.Str timeout with
    | (_, some err) =>
      let trace := trace ++ [Event.Record .ClientConnFinish .StatusError (some err)]
      ⟨cm, trace, none, some (KError.ErrGetConnection.WithCause err)⟩
    | (conn, none) =>
      let trace := trace ++ [Event.Record .ClientConnFinish .StatusInfo none]
      ⟨cm, trace, conn, none⟩

/-- The method `ConnWrapper.GetConn`. -/
def ConnWrapper.GetConn (cm : ConnWrapper) (d : Dialer) (ri : RPCInfo)
    (trace : List Event) : GetConnResult :=
  let configs := ri.Config
  let timeout := configs.connectTimeout
  match cm.connPool with
  | some cp =>
    let r := getConnWithPool cm cp d timeout ri trace
    match r.err with
    | some err => ⟨r.cm, r.trace, none, some err⟩
    | none =>
      let cm := { r.cm with conn := r.conn }
      match r.conn with
      | some (Conn.long _ raw) => ⟨cm, r.trace, some raw, none⟩
      | _ => ⟨cm, r.trace, cm.conn, none⟩
  | none =>
    let r := getConnWithDialer cm d timeout ri trace
    let cm := { r.cm with conn := r.conn }
    ⟨cm, r.trace, cm.conn, r.err⟩

/-- What `ReleaseConn` leaves: the wrapper, the trace, the wrapper put back
into `connWrapperPool` (if any), and the value it panicked with (if any). -/
structure ReleaseResult where
  cm : ConnWrapper
  trace : List Event
  recycled : Option ConnWrapper
  panic : Option String

/-- The method `ConnWrapper.ReleaseConn`; `ConnResetTag` is the constant
`rpcinfo.ConnResetTag`, and `ri` may be nil. -/
def ConnWrapper.ReleaseConn (ConnResetTag : String) (cm : ConnWrapper)
    (err : Option KError) (ri : Option RPCInfo) (trace : List Event) : ReleaseResult :=
  match cm.conn with
  | none => ⟨cm, trace, none, none⟩
  | some conn =>
    match cm.connPool with
    | some _ =>
      match err with
      | none =>
        match ri with
        | none => ⟨cm, trace, none, some callopt.nilDeref⟩
        | some ri =>
          let trace :=
            if (ri.To.Tag ConnResetTag).isSome then
              trace ++ [Event.Discard conn] ++
                [Event.Debugf "discarding the connection because peer will shutdown later"]
            else trace
          let trace := trace ++ [Event.Put conn]
          ⟨cm.zero, trace, some cm.zero, none⟩
      | some _ =>
        let trace := trace ++ [Event.Discard conn]
        ⟨cm.zero, trace, some cm.zero, none⟩
    | none =>
      let trace := trace ++ [Event.Close conn]
      ⟨cm.zero, trace, some cm.zero, none⟩

/-- The outcome of the connection attempt `GetConn` makes for address `addr`:
what `pool.Get` returns when a pool is configured, what `DialTimeout` returns
otherwise. -/
def attempt (cm : ConnWrapper) (d : Dialer) (ri : RPCInfo) (addr : Addr) :
    Option Conn × Option KError :=
  match cm.connPool with
  | some cp =>
    cp.Get addr.Network addr.Str { Dialer := d, ConnectTimeout := ri.Config.connectTimeout }
  | none => d addr.Network addr.Str ri.Config.connectTimeout

/-- The event of that attempt: the call of `pool.Get` or of `DialTimeout`. -/
def attemptEvent (cm : ConnWrapper) (ri : RPCInfo) (addr : Addr) : Event :=
  match cm.connPool with
  | some _ => Event.PoolGet addr.Network addr.Str ri.Config.connectTimeout
  | none => Event.DialTimeout addr.Network addr.Str ri.Config.connectTimeout

/-- The connection `GetConn` returns for the connection `c` the attempt
produced: the raw connection when a pool is configured and `c` has the RawConn
capability, `c` itself otherwise. -/
def returnedConn (cm : ConnWrapper) (c : Option Conn) : Option Conn :=
  match cm.connPool, c with
  | some _, some (Conn.long _ raw) => some raw
  | _, c => c

/-- An address for evaluation. -/
def sampleAddr : Addr := { Network := "tcp", Str := "127.0.0.1:8080" }

/-- An RPCInfo whose peer has an address and no tags. -/
def sampleRI : RPCInfo :=
  { Config := callopt.sampleConfig,
    To := { Address := some sampleAddr, Tag := fun _ => none, Method := "Echo" } }

/-- An RPCInfo whose peer has no address. -/
def noAddrRI : RPCInfo :=
  { Config := callopt.sampleConfig,
    To := { Address := none, Tag := fun _ => none, Method := "Echo" } }

/-- A pool whose `Get` hands out a plain connection. -/
def plainPool : ConnPool := { Get := fun _ _ _ => (some (Conn.plain 1), none) }

/-- A pool whose `Get` hands out a long connection wrapping a raw one. -/
def longPool : ConnPool := { Get := fun _ _ _ => (some (Conn.long 1 (Conn.plain 2)), none) }

/-- A pool whose `Get` times out. -/
def failingPool : ConnPool := { Get := fun _ _ _ => (none, some (KError.other "i/o timeout")) }

/-- A dialer that connects. -/
def sampleDialer : Dialer := fun _ _ _ => (some (Conn.plain 7), none)

end remotecli

/-! # Messages, codecs and meta handlers (`pkg/remote`) -/

namespace remote

open kerrors

/-- The role of a message, `remote.Client` or `remote.Server`. -/
inductive RPCRole
  | Client
  | Server
  deriving DecidableEq, Repr

/-- The type of a message; `Exception` is `remote.Exception`. -/
inductive MessageType
  | Call
  | Reply
  | Exception
  | Oneway
  deriving DecidableEq, Repr

/-- The interface `remote.Message`, as far as the handlers read it:
`RPCRole()`, `MessageType()` and `RPCInfo()`. -/
structure Message where
  RPCRole : RPCRole
  MessageType : MessageType
  RPCInfo : rpcinfo.RPCInfo

/-- The interface `remote.ByteBuffer`, as far as the handlers use it: what
`Flush()` returns. -/
structure ByteBuffer where
  Flush : Option KError

/-- The interface `remote.Codec`: `Encode` writes into the buffer and returns
an error or nil, `Decode` returns an error or nil. -/
structure Codec where
  Encode : Message → ByteBuffer → ByteBuffer × Option KError
  Decode : Message → ByteBuffer → Option KError

end remote

namespace bound

open kerrors remote

/-- Modelled from the spec: a `context.Context`, as far as the meta handlers
are concerned: the value stored under `consts.CtxKeyMethod` and the metainfo
key/value pairs tagged transient and transient-upstream (spec section 4.H). -/
structure Context where
  method : Option String
  transient : List (String × String)
  upstream : List (String × String)
  deriving DecidableEq, Repr

/-- Go `context.WithValue(ctx, consts.CtxKeyMethod, v)`. -/
def Context.WithMethod (ctx : Context) (v : String) : Context :=
  { ctx with method := some v }

/-- Modelled from the spec: `metainfo.TransferForward`: "values tagged
transient become transient-upstream and any previous transient-upstream
entries are dropped". -/
def TransferForward (ctx : Context) : Context :=
  { ctx with transient := [], upstream := ctx.transient }

/-- The interface `remote.MetaHandler` (pkg/remote/trans_meta.go). -/
structure MetaHandler where
  WriteMeta : Context → Message → Context × Option KError
  ReadMeta : Context → Message → Context × Option KError

/-- The struct `transMetaHandler`. -/
structure transMetaHandler where
  mhs : List MetaHandler

/-- The loop of `transMetaHandler.Write`: the handlers run first to last, each
on the context the previous one returned; the first error ends the loop. -/
def writeLoop : List MetaHandler → Context → Message → Context × Option KError
  | [], ctx, _ => (ctx, none)
  | hdlr :: rest, ctx, sendMsg =>
    match hdlr.WriteMeta ctx sendMsg with
    | (ctx, some err) => (ctx, some err)
    | (ctx, none) => writeLoop rest ctx sendMsg

/-- The method `transMetaHandler.Write`. -/
def transMetaHandler.Write (h : transMetaHandler) (ctx : Context) (sendMsg : Message) :
    Context × Option KError :=
  writeLoop h.mhs ctx sendMsg

/-- The loop of `transMetaHandler.OnMessage` over `ReadMeta`. -/
def readLoop : List MetaHandler → Context → Message → Context × Option KError
  | [], ctx, _ => (ctx, none)
  | hdlr :: rest, ctx, msg =>
    match hdlr.ReadMeta ctx msg with
    | (ctx, some err) => (ctx, some err)
    | (ctx, none) => readLoop rest ctx msg

/-- The function `getValidMsg`. -/
def getValidMsg (args result : Option Message) : Option Message × Bool :=
  match args with
  | some a => if a.RPCRole = RPCRole.Server then (some a, true) else (result, false)
  | none => (result, false)

/-- What `OnMessage` hands back: the context, the error, and the value it
panicked with (if any). -/
structure OnMessageResult where
  ctx : Context
  err : Option KError
  panic : Option String

/-- The method `transMetaHandler.OnMessage`. -/
def transMetaHandler.OnMessage (h : transMetaHandler) (ctx : Context)
    (args result : Option Message) : OnMessageResult :=
  match getValidMsg args result with
  | (none, _) => ⟨ctx, none, none⟩
  | (some msg, isServer) =>
    match readLoop h.mhs ctx msg with
    | (ctx, some err) => ⟨ctx, some err, none⟩
    | (ctx, none) =>
      if isServer then
        match result with
        | none => ⟨ctx, none, some callopt.nilDeref⟩
        | some res =>
          if res.MessageType ≠ MessageType.Exception then
            let ctx := ctx.WithMethod msg.RPCInfo.To.Method
            let ctx := TransferForward ctx
            ⟨ctx, none, none⟩
          else ⟨ctx, none, none⟩
      else ⟨ctx, none, none⟩

/-- The context a chain of handlers hands on, each step `f` run on what the
previous one returned (`f` is `WriteMeta` or `ReadMeta`). -/
def chainCtx (f : MetaHandler → Context → Message → Context × Option KError) :
    List MetaHandler → Context → Message → Context
  | [], ctx, _ => ctx
  | hdlr :: rest, ctx, msg => chainCtx f rest (f hdlr ctx msg).1 msg

/-- Every handler of the chain, run on the context the previous one returned,
returns no error. -/
def chainOk (f : MetaHandler → Context → Message → Context × Option KError) :
    List MetaHandler → Context → Message → Prop
  | [], _, _ => True
  | hdlr :: rest, ctx, msg =>
    (f hdlr ctx msg).2 = none ∧ chainOk f rest (f hdlr ctx msg).1 msg

/-- A meta handler that fails on write and on read, after marking the
context. -/
def failingHandler : MetaHandler :=
  { WriteMeta := fun ctx _ =>
      ({ ctx with transient := ("failed", "w") :: ctx.transient }, some (KError.other "no meta"))
    ReadMeta := fun ctx _ =>
      ({ ctx with transient := ("failed", "r") :: ctx.transient }, some (KError.other "no meta")) }

/-- A call message arriving at a server. -/
def serverArgs : Message :=
  { RPCRole := .Server, MessageType := .Call, RPCInfo := remotecli.sampleRI }

/-- A reply result of a server. -/
def replyResult : Message :=
  { RPCRole := .Server, MessageType := .Reply, RPCInfo := remotecli.sampleRI }

/-- An exception result of a server. -/
def exceptionResult : Message :=
  { RPCRole := .Server, MessageType := .Exception, RPCInfo := remotecli.sampleRI }

/-- A context with one transient pair and one transient-upstream pair. -/
def sampleCtx : Context :=
  { method := none, transient := [("k", "v")], upstream := [("old", "x")] }

/-- A meta handler that reads one more transient pair and writes nothing. -/
def traceHandler : MetaHandler :=
  { WriteMeta := fun ctx _ => (ctx, none)
    ReadMeta := fun ctx _ => ({ ctx with transient := ("trace", "t1") :: ctx.transient }, none) }

end bound

/-! # The default client transport handler
(`pkg/remote/trans/default_client_handler.go`) -/

namespace trans

open kerrors remote

/-- What a `Write` or `Read` does to its collaborators, in order.  `Record` is
`stats2.Record(ctx, ri, event, err)`. -/
inductive Event
  | Record (event : stats.Event) (err : Option KError)
  | SetReadTimeout
  | NewWriteByteBuffer
  | NewReadByteBuffer
  | SetPayloadCodec
  | Encode
  | Decode
  | Flush
  | ReleaseBuffer (err : Option KError)
  deriving DecidableEq, Repr

/-- The interface `Extension`, as far as `Write` and `Read` use it: the
buffers it hands out and its classification of timeout errors. -/
structure Extension where
  NewWriteByteBuffer : Message → ByteBuffer
  NewReadByteBuffer : Message → ByteBuffer
  IsTimeoutErr : KError → Bool

/-- The struct `cliTransHandler`. -/
structure cliTransHandler where
  codec : Codec
  ext : Extension

/-- The method `cliTransHandler.Write`; the two deferred calls run last, on
the error being returned. -/
def cliTransHandler.Write (t : cliTransHandler) (sendMsg : Message) (trace : List Event) :
    Option KError × List Event :=
  let trace := trace ++ [Event.Record .WriteStart none]
  let bufWriter := t.ext.NewWriteByteBuffer sendMsg
  let trace := trace ++ [Event.NewWriteByteBuffer]
  let trace := trace ++ [Event.SetPayloadCodec]
  let enc := t.codec.Encode sendMsg bufWriter
  let trace := trace ++ [Event.Encode]
  let ret : Option KError × List Event :=
    match enc.2 with
    | some err => (some err, trace)
    | none => (enc.1.Flush, trace ++ [Event.Flush])
  (ret.1, ret.2 ++ [Event.ReleaseBuffer ret.1] ++ [Event.Record .WriteFinish ret.1])

/-- The method `cliTransHandler.Read`; the two deferred calls run last, on the
error being returned. -/
def cliTransHandler.Read (t : cliTransHandler) (recvMsg : Message) (trace : List Event) :
    Option KError × List Event :=
  let trace := trace ++ [Event.Record .ReadStart none]
  let trace := trace ++ [Event.SetReadTimeout]
  let bufReader := t.ext.NewReadByteBuffer recvMsg
  let trace := trace ++ [Event.NewReadByteBuffer]
  let trace := trace ++ [Event.SetPayloadCodec]
  let err := t.codec.Decode recvMsg bufReader
  let trace := trace ++ [Event.Decode]
  let ret : Option KError :=
    match err with
    | some err =>
      if t.ext.IsTimeoutErr err then some (KError.ErrRPCTimeout.WithCause err)
      else some err
    | none => none
  (ret, trace ++ [Event.ReleaseBuffer ret] ++ [Event.Record .ReadFinish ret])

/-- A reply message received by a client. -/
def sampleMsg : Message :=
  { RPCRole := .Client, MessageType := .Reply, RPCInfo := remotecli.sampleRI }

/-- An extension that classifies the error `i/o timeout` as a timeout and
hands out buffers that flush. -/
def timeoutExt : Extension :=
  { NewWriteByteBuffer := fun _ => { Flush := none }
    NewReadByteBuffer := fun _ => { Flush := none }
    IsTimeoutErr := fun e => e == KError.other "i/o timeout" }

/-- The same extension with write buffers whose `Flush` times out. -/
def flushTimeoutExt : Extension :=
  { timeoutExt with NewWriteByteBuffer := fun _ => { Flush := some (KError.other "i/o timeout") } }

/-- A codec whose `Encode` and `Decode` time out. -/
def timeoutCodec : Codec :=
  { Encode := fun _ buf => (buf, some (KError.other "i/o timeout"))
    Decode := fun _ _ => some (KError.other "i/o timeout") }

/-- A codec whose `Decode` fails on a malformed frame and whose `Encode`
succeeds. -/
def brokenFrameCodec : Codec :=
  { Encode := fun _ buf => (buf, none)
    Decode := fun _ _ => some (KError.other "bad frame") }

end trans

/-! # Go durations as text -/

namespace gotime

/-- Go `time.Minute`. -/
def Minute : callopt.Duration := 60 * callopt.Second

/-- Go `fmtFrac` (package time), the loop: `prec` low digits of `v` are
dropped into the text, trailing zeros omitted; returns the text, what is left
of `v`, and whether anything was printed. -/
def fmtFracLoop : Nat → Nat → Bool → String → String × Nat × Bool
  | 0, v, print, acc => (acc, v, print)
  | prec + 1, v, print, acc =>
    let digit := v % 10
    let print := print || digit != 0
    let acc := if print then toString digit ++ acc else acc
    fmtFracLoop prec (v / 10) print acc

/-- Go `fmtFrac` (package time): the fraction of `v / 10^prec` as text, with
its decimal point, empty when the fraction is 0; and `v / 10^prec`. -/
def fmtFrac (v prec : Nat) : String × Nat :=
  let r := fmtFracLoop prec v false ""
  (if r.2.2 then "." ++ r.1 else r.1, r.2.1)

/-- Go `time.Duration.String` (standard library): `72h3m0.5s`, `5m0s`, `15s`,
`1.5ms`, `0s`. -/
def durationString (d : callopt.Duration) : String :=
  let neg := decide (d < 0)
  let u := d.natAbs
  let s : String :=
    if u < 1000000000 then
      if u = 0 then "0s"
      else if u < 1000 then
        (toString (fmtFrac u 0).2) ++ (fmtFrac u 0).1 ++ "ns"
      else if u < 1000000 then
        (toString (fmtFrac u 3).2) ++ (fmtFrac u 3).1 ++ "µs"
      else
        (toString (fmtFrac u 6).2) ++ (fmtFrac u 6).1 ++ "ms"
    else
      let secs := (fmtFrac u 9).2
      let s := toString (secs % 60) ++ (fmtFrac u 9).1 ++ "s"
      let mins := secs / 60
      if mins > 0 then
        let s := toString (mins % 60) ++ "m" ++ s
        let hours := mins / 60
        if hours > 0 then toString hours ++ "h" ++ s else s
      else s
  if neg then "-" ++ s else s

end gotime

/-! # The ACL middleware (`pkg/acl`) -/

namespace acl

open kerrors

/-- Go `endpoint.Endpoint`, as the error it returns for a call (context,
request and response taken together as `Req`). -/
abbrev Endpoint (Req : Type) := Req → Option KError

/-- The type `RejectFunc`: the reason for rejecting a request, nil to let it
pass. -/
abbrev RejectFunc (Req : Type) := Req → Option KError

/-- What one call through the middleware amounts to: the error returned and
how many times the inner endpoint was invoked. -/
structure Invocation where
  err : Option KError
  innerCalls : Nat
  deriving DecidableEq, Repr

/-- The first non-nil reason the rules give, in list order. -/
def firstReason {Req : Type} : List (RejectFunc Req) → Req → Option KError
  | [], _ => none
  | r :: rest, request =>
    match r request with
    | some reason => some reason
    | none => firstReason rest request

/-- Modelled from the spec: `NewACLMiddleware` (pkg/acl/acl.go is not under
src/, only its test is).  Scenario S3: with no rejecting rule the middleware
"is a no-op (errors from the inner endpoint pass through)"; with a rule
returning a non-nil reason it "short-circuits with the canonical ACL error;
the inner endpoint MUST NOT be invoked".  The reason is kept as the cause
(spec section 7: layers wrap lower-layer errors). -/
def NewACLMiddleware {Req : Type} (rules : List (RejectFunc Req)) (next : Endpoint Req)
    (request : Req) : Invocation :=
  match firstReason rules request with
  | some reason => { err := some (KError.ErrACL.WithCause reason), innerCalls := 0 }
  | none => { err := next request, innerCalls := 1 }

/-- The error `errFake` of the test. -/
def errFake : KError := .other "fake error"

/-- The endpoint `invoke` of the test. -/
def invoke : Endpoint Unit := fun _ => some errFake

/-- The rule `pass` of the test. -/
def pass : RejectFunc Unit := fun _ => none

/-- The rule `reject` of the test. -/
def reject : RejectFunc Unit := fun _ => some (.other "you should not pass")

end acl

/-! # The balancer cache key (`pkg/loadbalance/lbcache`) -/

namespace lbcache

/-- Modelled from the spec: the cache `Options` of spec section 3,
`{refresh_interval, expire_interval}`, in the field order the test builds
them. -/
structure Options where
  RefreshInterval : callopt.Duration
  ExpireInterval : callopt.Duration
  deriving DecidableEq, Repr

/-- Modelled from the spec: `fmt(Options)`, the struct printed by Go's fmt:
the two durations in Go duration notation, space-separated, in braces. -/
def Options.format (o : Options) : String :=
  "\x7b" ++ gotime.durationString o.RefreshInterval ++ " " ++
    gotime.durationString o.ExpireInterval ++ "\x7d"

/-- Modelled from the spec: `cacheKey` (pkg/loadbalance/lbcache/cache.go is not
under src/, only its test is), spec section 4.F:
`cache_key := resolver.Name()+"|"+lb.Name()+"|"+fmt(Options)`. -/
def cacheKey (resolver balancer : String) (opts : Options) : String :=
  resolver ++ "|" ++ balancer ++ "|" ++ opts.format

end lbcache

/-! # Server options (`server/option.go`) -/

namespace server

/-- The struct `remote.ServerOption` (pkg/remote is not under src/), reduced
to its two durations: `MaxConnectionIdleTime`, the field both options below
assign, and `ExitWaitTime`, the wait duration for graceful shutdown that the
doc comment of `WithExitWaitTime` names. -/
structure ServerOption where
  ExitWaitTime : callopt.Duration
  MaxConnectionIdleTime : callopt.Duration
  deriving DecidableEq, Repr

/-- The struct `internal_server.Options`, reduced to the fields the timeout
options of option.go touch. -/
structure Options where
  RemoteOpt : ServerOption
  LockBits : Nat
  deriving DecidableEq, Repr

/-- The type `utils.Slice`: the diagnostic entries pushed so far. -/
abbrev Slice := List String

/-- The type `Option` of package server: it wraps the effect `F`. -/
structure SvrOption where
  F : Options → Slice → Options × Slice

/-- The option `WithExitWaitTime`. -/
def WithExitWaitTime (timeout : callopt.Duration) : SvrOption :=
  ⟨fun o di =>
    let di := di ++ ["WithExitWaitTime(" ++ gotime.durationString timeout ++ ")"]
    if timeout > 0 then
      ({ o with RemoteOpt := { o.RemoteOpt with MaxConnectionIdleTime := timeout } }, di)
    else (o, di)⟩

/-- The option `WithMaxConnIdleTime`. -/
def WithMaxConnIdleTime (timeout : callopt.Duration) : SvrOption :=
  ⟨fun o di =>
    let di := di ++ ["WithMaxConnIdleTime(" ++ gotime.durationString timeout ++ ")"]
    if timeout > 0 then
      ({ o with RemoteOpt := { o.RemoteOpt with MaxConnectionIdleTime := timeout } }, di)
    else (o, di)⟩

/-- Server options with a one-second exit wait and a ten-minute idle time. -/
def sampleOptions : Options :=
  { RemoteOpt := { ExitWaitTime := callopt.Second, MaxConnectionIdleTime := 10 * gotime.Minute },
    LockBits := 0 }

end server

/-! # Service descriptions of the code generator (`tool/pkg/generator/type.go`) -/

namespace generator

/-- The struct `MethodInfo`, reduced to the fields that identify a method. -/
structure MethodInfo where
  ServiceName : String
  Name : String
  Oneway : Bool
  deriving DecidableEq, Repr

/-- The struct `ServiceInfo`, reduced to its name, its `Base` pointer (nil or
another service) and its `Methods`.  A value of this type has a finite base
chain. -/
inductive ServiceInfo where
  | mk (ServiceName : String) (Base : Option ServiceInfo) (Methods : List MethodInfo)

/-- The field `Base`. -/
def ServiceInfo.Base : ServiceInfo → Option ServiceInfo
  | .mk _ base _ => base

/-- The field `Methods`. -/
def ServiceInfo.Methods : ServiceInfo → List MethodInfo
  | .mk _ _ methods => methods

/-- The loop of `AllMethods`: while `base` is not nil, the methods of `base`
go in front of `ms` and `base` moves to `base.Base`. -/
def allMethodsLoop : Option ServiceInfo → List MethodInfo → List MethodInfo
  | none, ms => ms
  | some (.mk _ base methods), ms => allMethodsLoop base (methods ++ ms)

/-- The method `ServiceInfo.AllMethods`. -/
def ServiceInfo.AllMethods (s : ServiceInfo) : List MethodInfo :=
  allMethodsLoop s.Base s.Methods

/-- The base chain from `base` on: `base`, `base.Base`, and so on, nearest
first. -/
def baseChain : Option ServiceInfo → List ServiceInfo
  | none => []
  | some (.mk name base methods) => .mk name base methods :: baseChain base

/-- A service with no base. -/
def baseService : ServiceInfo :=
  .mk "Base" none [⟨"Base", "Ping", false⟩]

/-- A service extending `baseService`. -/
def midService : ServiceInfo :=
  .mk "Mid" (some baseService) [⟨"Mid", "Get", false⟩, ⟨"Mid", "Put", true⟩]

/-- A service extending `midService`. -/
def leafService : ServiceInfo :=
  .mk "Leaf" (some midService) [⟨"Leaf", "Echo", false⟩]

end generator

namespace callopt

/-! ## Lemmas on the loop and on string joining -/

theorem string_append_empty (s : String) : s ++ "" = s := by
  apply String.ext
  simp

theorem string_empty_append (s : String) : "" ++ s = s := by
  apply String.ext
  simp

theorem intercalate_go_eq (acc : String) (ts : List String) :
    String.intercalate.go acc "," ts = acc ++ commaAll ts := by
  induction ts generalizing acc with
  | nil => simp [String.intercalate.go, commaAll, string_append_empty]
  | cons t ts ih =>
    simp only [String.intercalate.go, commaAll]
    rw [ih]
    simp [String.append_assoc]

theorem intercalate_cons (t : String) (ts : List String) :
    ",".intercalate (t :: ts) = t ++ commaAll ts := by
  simp [String.intercalate, intercalate_go_eq]

/-- From index `i > 0` the loop appends every trace preceded by a comma. -/
theorem applyLoop_traces_pos (cos : List CallOption) (ts : List String) :
    ∀ (i : Nat) (co : callOptions) (buf : String), 0 < i → AppendsTraces cos co ts →
      (applyLoop cos i co buf).panic = none ∧
      (applyLoop cos i co buf).di = buf ++ commaAll ts := by
  induction cos generalizing ts with
  | nil =>
    intro i co buf _ h
    cases ts with
    | nil => simp [applyLoop, commaAll, string_append_empty]
    | cons t ts => simp [AppendsTraces] at h
  | cons o rest ih =>
    intro i co buf hi h
    cases ts with
    | nil => simp [AppendsTraces] at h
    | cons t ts =>
      simp only [AppendsTraces] at h
      obtain ⟨hp, hd, hrest⟩ := h (buf ++ ",")
      have hi' : i > 0 := hi
      simp only [applyLoop, hi', if_true, hp]
      obtain ⟨ihp, ihd⟩ := ih ts (i + 1) (o.f co (buf ++ ",")).co (o.f co (buf ++ ",")).di
        (Nat.succ_pos i) hrest
      refine ⟨ihp, ?_⟩
      rw [ihd, hd]
      simp [commaAll, String.append_assoc]

/-- From index `0` the loop appends the traces joined by commas. -/
theorem applyLoop_traces_zero (cos : List CallOption) (ts : List String)
    (co : callOptions) (buf : String) (h : AppendsTraces cos co ts) :
    (applyLoop cos 0 co buf).panic = none ∧
    (applyLoop cos 0 co buf).di = buf ++ ",".intercalate ts := by
  cases cos with
  | nil =>
    cases ts with
    | nil => simp [applyLoop, String.intercalate, string_append_empty]
    | cons t ts => simp [AppendsTraces] at h
  | cons o rest =>
    cases ts with
    | nil => simp [AppendsTraces] at h
    | cons t ts =>
      simp only [AppendsTraces] at h
      obtain ⟨hp, hd, hrest⟩ := h buf
      simp only [applyLoop, gt_iff_lt, Nat.lt_irrefl, if_false, hp]
      obtain ⟨ihp, ihd⟩ := applyLoop_traces_pos rest ts 1 (o.f co buf).co (o.f co buf).di
        Nat.one_pos hrest
      refine ⟨ihp, ?_⟩
      rw [ihd, hd, intercalate_cons]
      simp [String.append_assoc]

/-! ## Lemmas on lock bits -/

theorem and_or_keep (b x m : Nat) (h : b &&& m = m) : (b ||| x) &&& m = m := by
  apply Nat.eq_of_testBit_eq
  intro i
  have hi := congrArg (fun n => Nat.testBit n i) h
  simp only [Nat.testBit_and, Nat.testBit_or] at hi ⊢
  cases hb : b.testBit i <;> cases hm : m.testBit i <;> cases hx : x.testBit i <;> simp_all

theorem or_and_self (b m : Nat) : (b ||| m) &&& m = m := by
  apply Nat.eq_of_testBit_eq
  intro i
  simp only [Nat.testBit_and, Nat.testBit_or]
  cases b.testBit i <;> cases m.testBit i <;> rfl

theorem or_and_disjoint (b x m : Nat) (h : x &&& m = 0) : (b ||| x) &&& m = b &&& m := by
  apply Nat.eq_of_testBit_eq
  intro i
  have hi := congrArg (fun n => Nat.testBit n i) h
  simp only [Nat.testBit_and, Nat.testBit_or, Nat.zero_testBit] at hi ⊢
  cases hb : b.testBit i <;> cases hm : m.testBit i <;> cases hx : x.testBit i <;> simp_all

/-! ## What one recognized option does to the RPCConfig and the lock bits -/

theorem build_step (env : Env) (e : OptionExpr) (co : callOptions) (di : String)
    (cfg : RPCConfig) (hc : co.configs = some cfg)
    (hp : ((e.build env).f co di).panic = none) :
    ((e.build env).f co di).co.configs = some (stepConfig cfg e) ∧
    ((e.build env).f co di).co.locks.Bits = stepBits co.locks.Bits e := by
  cases e with
  | WithHostPort hostport =>
    simp only [OptionExpr.build, WithHostPort] at hp ⊢
    cases hs : setInstance env co.svr hostport <;> simp [hs, hc, stepConfig, stepBits] at hp ⊢
  | WithURL url =>
    simp only [OptionExpr.build, WithURL] at hp ⊢
    cases hsvr : co.svr with
    | none => simp [hsvr] at hp
    | some s =>
      cases hr : co.httpResolver with
      | none => simp [hsvr, hr] at hp
      | some r =>
        cases hu : r url with
        | error err => simp [hsvr, hr, hu] at hp
        | ok hostport =>
          simp only [hsvr, hr, hu] at hp ⊢
          cases hs : setInstance env (some (s.SetTag env.HTTPURL url)) hostport <;>
            simp [hs, hc, stepConfig, stepBits] at hp ⊢
  | WithHTTPHost host =>
    simp only [OptionExpr.build, WithHTTPHost] at hp ⊢
    cases hsvr : co.svr <;> simp [hsvr, hc, stepConfig, stepBits] at hp ⊢
  | WithRPCTimeout d =>
    simp [OptionExpr.build, WithRPCTimeout, hc, stepConfig, stepBits,
      RPCConfig.SetRPCTimeout, RPCConfig.SetReadWriteTimeout]
  | WithConnectTimeout d =>
    simp [OptionExpr.build, WithConnectTimeout, hc, stepConfig, stepBits,
      RPCConfig.SetConnectTimeout]
  | WithCluster cluster =>
    simp only [OptionExpr.build, WithCluster, lockTargetTag] at hp ⊢
    cases hsvr : co.svr <;> simp [hsvr, hc, stepConfig, stepBits] at hp ⊢
  | WithIDC idc =>
    simp only [OptionExpr.build, WithIDC, lockTargetTag] at hp ⊢
    cases hsvr : co.svr <;> simp [hsvr, hc, stepConfig, stepBits] at hp ⊢

/-- A loop that does not panic ran its first option without a panic and went
on from the state that option left. -/
theorem applyLoop_cons_ok (o : CallOption) (rest : List CallOption) (i : Nat)
    (co : callOptions) (buf : String)
    (h : (applyLoop (o :: rest) i co buf).panic = none) :
    (o.f co (if i > 0 then buf ++ "," else buf)).panic = none ∧
    applyLoop (o :: rest) i co buf =
      applyLoop rest (i + 1) (o.f co (if i > 0 then buf ++ "," else buf)).co
        (o.f co (if i > 0 then buf ++ "," else buf)).di := by
  cases hp : (o.f co (if i > 0 then buf ++ "," else buf)).panic with
  | some p => simp [applyLoop, hp] at h
  | none => simp [applyLoop, hp]

theorem stepBits_keep (bits m : Nat) (e : OptionExpr) (h : bits &&& m = m) :
    stepBits bits e &&& m = m := by
  cases e <;> simp only [stepBits] <;> first | exact h | skip
  · exact and_or_keep _ _ _ (and_or_keep _ _ _ h)
  · exact and_or_keep _ _ _ h

/-- Invariant of the loop over recognized options: the RPCConfig stays
installed, lock bits are only ever added, and the two RPC timeouts are those of
the last `WithRPCTimeout` (the ones found at the start when there is none). -/
theorem applyLoop_lastRPCTimeout (env : Env) (es : List OptionExpr) :
    ∀ (i : Nat) (co : callOptions) (buf : String) (cfg : RPCConfig),
      co.configs = some cfg →
      (applyLoop (es.map (OptionExpr.build env)) i co buf).panic = none →
      ∃ cfg1, (applyLoop (es.map (OptionExpr.build env)) i co buf).co.configs = some cfg1 ∧
        (∀ m, co.locks.Bits &&& m = m →
          (applyLoop (es.map (OptionExpr.build env)) i co buf).co.locks.Bits &&& m = m) ∧
        (match lastRPCTimeout es with
         | some d =>
           cfg1.rpcTimeout = d ∧ cfg1.readWriteTimeout = d ∧
           (applyLoop (es.map (OptionExpr.build env)) i co buf).co.locks.Bits
              &&& BitRPCTimeout = BitRPCTimeout ∧
           (applyLoop (es.map (OptionExpr.build env)) i co buf).co.locks.Bits
              &&& BitReadWriteTimeout = BitReadWriteTimeout
         | none =>
           cfg1.rpcTimeout = cfg.rpcTimeout ∧ cfg1.readWriteTimeout = cfg.readWriteTimeout) := by
  induction es with
  | nil =>
    intro i co buf cfg hc _
    exact ⟨cfg, by simpa [applyLoop] using hc, fun m hm => by simpa [applyLoop] using hm,
      by simp [lastRPCTimeout]⟩
  | cons e es ih =>
    intro i co buf cfg hc hp
    rw [List.map_cons] at hp ⊢
    obtain ⟨hp1, heq⟩ := applyLoop_cons_ok _ _ i co buf hp
    rw [heq] at hp ⊢
    obtain ⟨hcfg, hbits⟩ := build_step env e co _ cfg hc hp1
    obtain ⟨cfg1, h1, hmono, hlast⟩ := ih (i + 1) _ _ (stepConfig cfg e) hcfg hp
    refine ⟨cfg1, h1, ?_, ?_⟩
    · intro m hm
      apply hmono
      rw [hbits]
      exact stepBits_keep _ _ _ hm
    · cases hl : lastRPCTimeout es with
      | some d =>
        simp only [lastRPCTimeout, hl]
        simpa [hl] using hlast
      | none =>
        rw [hl] at hlast
        obtain ⟨hr, hw⟩ := hlast
        cases e with
        | WithRPCTimeout d =>
          simp only [lastRPCTimeout, hl]
          refine ⟨by simpa [stepConfig] using hr, by simpa [stepConfig] using hw, ?_, ?_⟩
          · apply hmono
            rw [hbits]
            exact and_or_keep _ _ _ (or_and_self _ _)
          · apply hmono
            rw [hbits]
            exact or_and_self _ _
        | _ =>
          simp only [lastRPCTimeout, hl]
          exact ⟨by simpa [stepConfig] using hr, by simpa [stepConfig] using hw⟩

/-! ## Claims -/

/-- C1: when every option effect completes without panicking and the i-th one
appends the text `ts[i]` to the diagnostic buffer, `Apply` returns, and the
string it returns is exactly `[` followed by the texts in input order joined by
single commas, followed by `]`. -/
theorem Apply_diag_traces (cos : List CallOption) (ts : List String)
    (cfg : RPCConfig) (svr : RemoteInfo) (locks : ConfigLocks) (res : Resolver)
    (pooled : callOptions)
    (h : AppendsTraces cos (install cfg svr locks res pooled) ts) :
    (Apply cos cfg svr locks res pooled).diag? = some ("[" ++ ",".intercalate ts ++ "]") := by
  obtain ⟨hp, hd⟩ := applyLoop_traces_zero cos ts (install cfg svr locks res pooled) "[" h
  simp only [Apply, string_empty_append, hp, ApplyResult.diag?, hd]

/-- Witness for C1: a host-port option followed by a one-second RPC timeout. -/
theorem Apply_diag_traces_witness :
    AppendsTraces [WithHostPort sampleEnv "127.0.0.1:8080", WithRPCTimeout sampleEnv Second]
        (install sampleConfig sampleRemote noLocks sampleResolver newOptions)
        ["WithHostPort(127.0.0.1:8080),", "WithRPCTimeout(1000ms)"] ∧
    (Apply [WithHostPort sampleEnv "127.0.0.1:8080", WithRPCTimeout sampleEnv Second]
        sampleConfig sampleRemote noLocks sampleResolver newOptions).diag? =
      some ("[" ++ ",".intercalate ["WithHostPort(127.0.0.1:8080),", "WithRPCTimeout(1000ms)"]
        ++ "]") := by
  have h : AppendsTraces
      [WithHostPort sampleEnv "127.0.0.1:8080", WithRPCTimeout sampleEnv Second]
      (install sampleConfig sampleRemote noLocks sampleResolver newOptions)
      ["WithHostPort(127.0.0.1:8080),", "WithRPCTimeout(1000ms)"] := by
    intro di
    refine ⟨rfl, ?_, ?_⟩
    · show di ++ "WithHostPort(" ++ "127.0.0.1:8080" ++ ")," = di ++ "WithHostPort(127.0.0.1:8080),"
      rw [String.append_assoc, String.append_assoc]
      rfl
    · intro di2
      refine ⟨rfl, ?_, trivial⟩
      show di2 ++ "WithRPCTimeout(" ++ "1000" ++ "ms)" = di2 ++ "WithRPCTimeout(1000ms)"
      rw [String.append_assoc, String.append_assoc]
      rfl
  exact ⟨h, Apply_diag_traces _ _ _ _ _ _ _ h⟩

/-- C2 (evaluation at the two inputs the claim names): after a `WithHostPort`
the returned string has two commas in a row before the next entry, and
`WithHTTPHost` contributes no entry at all. -/
theorem Apply_diag_recognized_eval :
    (Apply [WithHostPort sampleEnv "127.0.0.1:8080", WithRPCTimeout sampleEnv Second]
        sampleConfig sampleRemote noLocks sampleResolver newOptions).diag? =
      some "[WithHostPort(127.0.0.1:8080),,WithRPCTimeout(1000ms)]" ∧
    (Apply [WithHTTPHost sampleEnv "h"]
        sampleConfig sampleRemote noLocks sampleResolver newOptions).diag? = some "[]" := by
  constructor <;> rfl

/-- C3 (as the code has it): for the empty sequence of options, whatever the
RPCConfig, RemoteInfo, inherited locks, resolver and pooled block, `Apply`
returns the two brackets with nothing between them, a string of length 2. -/
theorem Apply_nil_diag (cfg : RPCConfig) (svr : RemoteInfo) (locks : ConfigLocks)
    (res : Resolver) (pooled : callOptions) :
    (Apply [] cfg svr locks res pooled).diag? = some "[]" ∧
    (Apply [] cfg svr locks res pooled).diag?.map String.length = some 2 := by
  constructor <;> rfl

/-- C3 (counterexample): on the empty sequence the returned string does not
have length zero. -/
theorem Apply_nil_diag_length_ne_zero :
    ¬ ((Apply [] sampleConfig sampleRemote noLocks sampleResolver newOptions).diag?.map
        String.length = some 0) := by
  decide

/-- C4: when the sequence has a `WithRPCTimeout` and `Apply` returns, the
RPCConfig it leaves has `rpc_timeout` and `read_write_timeout` equal to the
duration of the last `WithRPCTimeout`, the lock set handed to `ApplyLocks` has
the RPCTimeout and ReadWriteTimeout bits set, and both bits are recorded as
pinned on the RPCConfig. -/
theorem Apply_last_rpcTimeout (env : Env) (es : List OptionExpr) (d : Duration)
    (cfg : RPCConfig) (svr : RemoteInfo) (locks : ConfigLocks) (res : Resolver)
    (pooled : callOptions) (r : Applied)
    (hlast : lastRPCTimeout es = some d)
    (hret : Apply (es.map (OptionExpr.build env)) cfg svr locks res pooled = .returned r) :
    r.cfg.rpcTimeout = d ∧ r.cfg.readWriteTimeout = d ∧
    r.locks.isLocked BitRPCTimeout ∧ r.locks.isLocked BitReadWriteTimeout ∧
    r.cfg.pinned &&& BitRPCTimeout = BitRPCTimeout ∧
    r.cfg.pinned &&& BitReadWriteTimeout = BitReadWriteTimeout := by
  unfold Apply at hret
  simp only [string_empty_append] at hret
  cases hp : (applyLoop (es.map (OptionExpr.build env)) 0
      (install cfg svr locks res pooled) "[").panic with
  | some p => simp [hp] at hret
  | none =>
    obtain ⟨cfg1, h1, _, hl⟩ := applyLoop_lastRPCTimeout env es 0
      (install cfg svr locks res pooled) "[" cfg rfl hp
    rw [hlast] at hl
    obtain ⟨hr, hw, hb1, hb2⟩ := hl
    simp only [hp] at hret
    injection hret with hret
    subst hret
    simp only [h1, Option.getD_some, ConfigLocks.ApplyLocks, ConfigLocks.isLocked]
    refine ⟨hr, hw, hb1, hb2, ?_, ?_⟩
    · rw [Nat.lor_comm]; exact and_or_keep _ _ _ hb1
    · rw [Nat.lor_comm]; exact and_or_keep _ _ _ hb2

/-- Witness for C4: two RPC timeouts with a connect timeout between them, over
a client default of 0; the last one, two seconds, is what stays. -/
theorem Apply_last_rpcTimeout_witness :
    lastRPCTimeout [.WithRPCTimeout Second, .WithConnectTimeout Millisecond,
      .WithRPCTimeout (2 * Second)] = some (2 * Second) ∧
    ∃ r, Apply ([OptionExpr.WithRPCTimeout Second, .WithConnectTimeout Millisecond,
          .WithRPCTimeout (2 * Second)].map (OptionExpr.build sampleEnv))
        sampleConfig sampleRemote noLocks sampleResolver newOptions = .returned r ∧
      r.cfg.rpcTimeout = 2 * Second ∧ r.cfg.readWriteTimeout = 2 * Second ∧
      r.locks.isLocked BitRPCTimeout ∧ r.locks.isLocked BitReadWriteTimeout ∧
      r.cfg.pinned &&& BitRPCTimeout = BitRPCTimeout ∧
      r.cfg.pinned &&& BitReadWriteTimeout = BitReadWriteTimeout := by
  refine ⟨rfl, ?_⟩
  cases h : Apply ([OptionExpr.WithRPCTimeout Second, .WithConnectTimeout Millisecond,
          .WithRPCTimeout (2 * Second)].map (OptionExpr.build sampleEnv))
        sampleConfig sampleRemote noLocks sampleResolver newOptions with
  | returned r =>
    exact ⟨r, rfl, Apply_last_rpcTimeout sampleEnv
      [.WithRPCTimeout Second, .WithConnectTimeout Millisecond, .WithRPCTimeout (2 * Second)]
      (2 * Second) sampleConfig sampleRemote noLocks sampleResolver newOptions r rfl h⟩
  | panicked p co buf =>
    have hd : (Apply ([OptionExpr.WithRPCTimeout Second, .WithConnectTimeout Millisecond,
          .WithRPCTimeout (2 * Second)].map (OptionExpr.build sampleEnv))
        sampleConfig sampleRemote noLocks sampleResolver newOptions).diag? ≠ none := by
      decide
    rw [h] at hd
    exact absurd rfl hd

/-- C5: on a block with an RPCConfig installed, `WithConnectTimeout d` sets
`connect_timeout` to `d` and nothing else of the RPCConfig, leaves the
RemoteInfo, the locked tags and the resolver as they are, sets the
ConnectTimeout bit and changes no other bit; `WithRPCTimeout d` leaves
`connect_timeout` and the ConnectTimeout bit as they are. -/
theorem timeouts_independent (env : Env) (d : Duration) (co : callOptions) (di : String)
    (cfg : RPCConfig) (hc : co.configs = some cfg) :
    (((WithConnectTimeout env d).f co di).panic = none ∧
      ((WithConnectTimeout env d).f co di).co.configs =
        some { rpcTimeout := cfg.rpcTimeout, connectTimeout := d,
               readWriteTimeout := cfg.readWriteTimeout,
               interactionMode := cfg.interactionMode, pinned := cfg.pinned } ∧
      ((WithConnectTimeout env d).f co di).co.svr = co.svr ∧
      ((WithConnectTimeout env d).f co di).co.httpResolver = co.httpResolver ∧
      ((WithConnectTimeout env d).f co di).co.locks.Tags = co.locks.Tags ∧
      ((WithConnectTimeout env d).f co di).co.locks.isLocked BitConnectTimeout ∧
      ∀ i, BitConnectTimeout.testBit i = false →
        ((WithConnectTimeout env d).f co di).co.locks.Bits.testBit i =
          co.locks.Bits.testBit i) ∧
    (((WithRPCTimeout env d).f co di).panic = none ∧
      ((WithRPCTimeout env d).f co di).co.configs.map RPCConfig.connectTimeout =
        some cfg.connectTimeout ∧
      ((WithRPCTimeout env d).f co di).co.locks.Bits &&& BitConnectTimeout =
        co.locks.Bits &&& BitConnectTimeout) := by
  refine ⟨⟨?_, ?_, ?_, ?_, ?_, ?_, ?_⟩, ?_, ?_, ?_⟩
  · simp [WithConnectTimeout, hc]
  · simp [WithConnectTimeout, hc, RPCConfig.SetConnectTimeout]
  · simp [WithConnectTimeout, hc]
  · simp [WithConnectTimeout, hc]
  · simp [WithConnectTimeout, hc]
  · simp only [WithConnectTimeout, hc, ConfigLocks.isLocked]
    exact or_and_self _ _
  · intro i hi
    simp only [WithConnectTimeout, hc, Nat.testBit_or, hi, Bool.or_false]
  · simp [WithRPCTimeout, hc]
  · simp [WithRPCTimeout, hc, RPCConfig.SetRPCTimeout, RPCConfig.SetReadWriteTimeout]
  · simp only [WithRPCTimeout, hc]
    rw [or_and_disjoint _ _ _ (by decide), or_and_disjoint _ _ _ (by decide)]

/-- Witness for C5: a 50 ms connect timeout on the freshly installed block. -/
theorem timeouts_independent_witness :
    (install sampleConfig sampleRemote noLocks sampleResolver newOptions).configs =
      some sampleConfig ∧
    ((WithConnectTimeout sampleEnv (50 * Millisecond)).f
        (install sampleConfig sampleRemote noLocks sampleResolver newOptions) "[").panic = none ∧
    ((WithRPCTimeout sampleEnv (50 * Millisecond)).f
        (install sampleConfig sampleRemote noLocks sampleResolver newOptions)
        "[").co.configs.map RPCConfig.connectTimeout = some sampleConfig.connectTimeout :=
  ⟨rfl,
   (timeouts_independent sampleEnv (50 * Millisecond)
      (install sampleConfig sampleRemote noLocks sampleResolver newOptions) "["
      sampleConfig rfl).1.1,
   (timeouts_independent sampleEnv (50 * Millisecond)
      (install sampleConfig sampleRemote noLocks sampleResolver newOptions) "["
      sampleConfig rfl).2.2.1⟩

/-- C7: on a block whose RemoteInfo is `svr`, `WithHostPort s` installs
(tcp, s, DefaultWeight, no tags) as the instance when `s` resolves as a TCP
address, whatever the unix resolution says; otherwise it installs
(unix, s, DefaultWeight, no tags) when `s` resolves as a unix address; and when
`s` resolves as neither the option panics and the RemoteInfo is left as it
was.  Tags are untouched in every case. -/
theorem WithHostPort_effect (env : Env) (s : String) (co : callOptions) (di : String)
    (svr : RemoteInfo) (hs : co.svr = some svr) :
    (env.ResolveTCPAddr "tcp" s = true →
      ((WithHostPort env s).f co di).panic = none ∧
      ((WithHostPort env s).f co di).co.svr =
        some { inst := some { network := "tcp", address := s,
                              weight := env.DefaultWeight, tags := [] },
               tags := svr.tags, pinnedTags := svr.pinnedTags }) ∧
    (env.ResolveTCPAddr "tcp" s = false → env.ResolveUnixAddr "unix" s = true →
      ((WithHostPort env s).f co di).panic = none ∧
      ((WithHostPort env s).f co di).co.svr =
        some { inst := some { network := "unix", address := s,
                              weight := env.DefaultWeight, tags := [] },
               tags := svr.tags, pinnedTags := svr.pinnedTags }) ∧
    (env.ResolveTCPAddr "tcp" s = false → env.ResolveUnixAddr "unix" s = false →
      ((WithHostPort env s).f co di).panic =
        some ("WithHostPort: " ++ ("invalid '" ++ s ++ "'")) ∧
      ((WithHostPort env s).f co di).co.svr = some svr) := by
  refine ⟨?_, ?_, ?_⟩
  · intro ht
    simp [WithHostPort, setInstance, ht, hs, RemoteInfo.SetInstance, NewInstance]
  · intro ht hu
    simp [WithHostPort, setInstance, ht, hu, hs, RemoteInfo.SetInstance, NewInstance]
  · intro ht hu
    simp [WithHostPort, setInstance, ht, hu, hs]

/-- Witness for C7: `127.0.0.1:8080` yields tcp / `127.0.0.1:8080` /
DefaultWeight. -/
theorem WithHostPort_effect_witness :
    (install sampleConfig sampleRemote noLocks sampleResolver newOptions).svr =
      some sampleRemote ∧
    sampleEnv.ResolveTCPAddr "tcp" "127.0.0.1:8080" = true ∧
    ((WithHostPort sampleEnv "127.0.0.1:8080").f
        (install sampleConfig sampleRemote noLocks sampleResolver newOptions) "[").panic = none ∧
    ((WithHostPort sampleEnv "127.0.0.1:8080").f
        (install sampleConfig sampleRemote noLocks sampleResolver newOptions) "[").co.svr =
      some { inst := some { network := "tcp", address := "127.0.0.1:8080",
                            weight := sampleEnv.DefaultWeight, tags := [] },
             tags := sampleRemote.tags, pinnedTags := sampleRemote.pinnedTags } ∧
    ((WithHostPort rejectingEnv "nowhere").f
        (install sampleConfig sampleRemote noLocks sampleResolver newOptions) "[").panic =
      some ("WithHostPort: " ++ ("invalid '" ++ "nowhere" ++ "'")) ∧
    ((WithHostPort rejectingEnv "nowhere").f
        (install sampleConfig sampleRemote noLocks sampleResolver newOptions) "[").co.svr =
      some sampleRemote :=
  ⟨rfl, rfl,
   ((WithHostPort_effect sampleEnv "127.0.0.1:8080"
      (install sampleConfig sampleRemote noLocks sampleResolver newOptions) "["
      sampleRemote rfl).1 rfl).1,
   ((WithHostPort_effect sampleEnv "127.0.0.1:8080"
      (install sampleConfig sampleRemote noLocks sampleResolver newOptions) "["
      sampleRemote rfl).1 rfl).2,
   ((WithHostPort_effect rejectingEnv "nowhere"
      (install sampleConfig sampleRemote noLocks sampleResolver newOptions) "["
      sampleRemote rfl).2.2 rfl rfl).1,
   ((WithHostPort_effect rejectingEnv "nowhere"
      (install sampleConfig sampleRemote noLocks sampleResolver newOptions) "["
      sampleRemote rfl).2.2 rfl rfl).2⟩

/-- C8 (as the code has it): whenever the unix resolver accepts
`not-an-address`, as Go's `net.ResolveUnixAddr` does for every address,
`WithHostPort "not-an-address"` does not panic and installs an instance with
that address on the RemoteInfo: a tcp one if the TCP resolver accepted the
string, a unix one otherwise. -/
theorem WithHostPort_not_an_address (env : Env) (co : callOptions) (di : String)
    (svr : RemoteInfo) (hs : co.svr = some svr)
    (hu : env.ResolveUnixAddr "unix" "not-an-address" =
      goResolveUnixAddr "unix" "not-an-address") :
    ((WithHostPort env "not-an-address").f co di).panic = none ∧
    ((WithHostPort env "not-an-address").f co di).co.svr.bind RemoteInfo.inst =
      some { network := if env.ResolveTCPAddr "tcp" "not-an-address" then "tcp" else "unix",
             address := "not-an-address", weight := env.DefaultWeight, tags := [] } := by
  have hu1 : env.ResolveUnixAddr "unix" "not-an-address" = true := by
    rw [hu]; decide
  cases ht : env.ResolveTCPAddr "tcp" "not-an-address" <;>
    simp [WithHostPort, setInstance, ht, hu1, hs, RemoteInfo.SetInstance, NewInstance]

/-- Witness for C8 (amended): the sample environment, whose unix resolver is
Go's. -/
theorem WithHostPort_not_an_address_witness :
    (install sampleConfig sampleRemote noLocks sampleResolver newOptions).svr =
      some sampleRemote ∧
    sampleEnv.ResolveUnixAddr "unix" "not-an-address" =
      goResolveUnixAddr "unix" "not-an-address" ∧
    ((WithHostPort sampleEnv "not-an-address").f
        (install sampleConfig sampleRemote noLocks sampleResolver newOptions) "[").panic = none :=
  ⟨rfl, rfl,
   (WithHostPort_not_an_address sampleEnv
      (install sampleConfig sampleRemote noLocks sampleResolver newOptions) "["
      sampleRemote rfl rfl).1⟩

/-- C8 (counterexample): with Go's unix resolver, `WithHostPort
"not-an-address"` raises nothing, `Apply` returns, and the RemoteInfo carries
the unix instance named `not-an-address`. -/
theorem WithHostPort_not_an_address_installs :
    (Apply [WithHostPort sampleEnv "not-an-address"]
        sampleConfig sampleRemote noLocks sampleResolver newOptions).diag? =
      some "[WithHostPort(not-an-address),]" ∧
    ((WithHostPort sampleEnv "not-an-address").f
        (install sampleConfig sampleRemote noLocks sampleResolver newOptions) "[").panic = none ∧
    ((WithHostPort sampleEnv "not-an-address").f
        (install sampleConfig sampleRemote noLocks sampleResolver newOptions)
        "[").co.svr.bind RemoteInfo.inst =
      some { network := "unix", address := "not-an-address", weight := 10, tags := [] } := by
  refine ⟨rfl, rfl, rfl⟩

/-- C9: on a block whose RemoteInfo is `svr` and whose resolver is `res`,
`WithURL u` first records the tag HTTPURL = u.  When `res u` is an error the
option panics with it and nothing else has changed (the instance is the one
found).  When `res u` is a hostport `h`, the block is left exactly as
`WithHostPort h` leaves the block carrying the new tag, and the option panics
exactly when that `WithHostPort h` does.  All in all it panics exactly when the
resolver fails or `h` resolves neither as TCP nor as unix. -/
theorem WithURL_effect (env : Env) (u : String) (co : callOptions) (di : String)
    (svr : RemoteInfo) (res : Resolver)
    (hs : co.svr = some svr) (hr : co.httpResolver = some res) :
    (∃ s1, ((WithURL env u).f co di).co.svr = some s1 ∧ s1.tags env.HTTPURL = some u) ∧
    (∀ err, res u = .error err →
      ((WithURL env u).f co di).panic = some ("http resolve failed: " ++ err) ∧
      ((WithURL env u).f co di).co =
        { co with svr := some (svr.SetTag env.HTTPURL u) } ∧
      ((WithURL env u).f co di).co.svr.bind RemoteInfo.inst = svr.inst) ∧
    (∀ h, res u = .ok h →
      ((WithURL env u).f co di).co =
        ((WithHostPort env h).f { co with svr := some (svr.SetTag env.HTTPURL u) } di).co ∧
      (((WithURL env u).f co di).panic = none ↔
        ((WithHostPort env h).f
          { co with svr := some (svr.SetTag env.HTTPURL u) } di).panic = none)) ∧
    (((WithURL env u).f co di).panic ≠ none ↔
      (∃ err, res u = .error err) ∨
      (∃ h, res u = .ok h ∧ env.ResolveTCPAddr "tcp" h = false ∧
        env.ResolveUnixAddr "unix" h = false)) := by
  cases hres : res u with
  | error e =>
    refine ⟨?_, ?_, ?_, ?_⟩
    · simp [WithURL, hs, hr, hres, RemoteInfo.SetTag]
    · intro err herr
      cases herr
      simp [WithURL, hs, hr, hres, RemoteInfo.SetTag]
    · intro h hh
      cases hh
    · simp [WithURL, hs, hr, hres]
  | ok h =>
    cases ht : env.ResolveTCPAddr "tcp" h <;> cases hu : env.ResolveUnixAddr "unix" h <;>
    · refine ⟨?_, ?_, ?_, ?_⟩
      · simp [WithURL, hs, hr, hres, setInstance, ht, hu, RemoteInfo.SetTag,
          RemoteInfo.SetInstance]
      · intro err herr
        cases herr
      · intro h1 hh
        cases hh
        simp [WithURL, WithHostPort, hs, hr, hres, setInstance, ht, hu]
      · simp [WithURL, hs, hr, hres, setInstance, ht, hu]

/-- Witness for C9: a url the sample resolver knows. -/
theorem WithURL_effect_witness :
    (install sampleConfig sampleRemote noLocks sampleResolver newOptions).svr =
      some sampleRemote ∧
    (install sampleConfig sampleRemote noLocks sampleResolver newOptions).httpResolver =
      some sampleResolver ∧
    (((WithURL sampleEnv "http://svc.local/api").f
        (install sampleConfig sampleRemote noLocks sampleResolver newOptions) "[").panic ≠ none ↔
      (∃ err, sampleResolver "http://svc.local/api" = .error err) ∨
      (∃ h, sampleResolver "http://svc.local/api" = .ok h ∧
        sampleEnv.ResolveTCPAddr "tcp" h = false ∧
        sampleEnv.ResolveUnixAddr "unix" h = false)) ∧
    ((WithURL sampleEnv "http://svc.local/api").f
        (install sampleConfig sampleRemote noLocks sampleResolver newOptions)
        "[").co.svr.bind RemoteInfo.inst =
      some { network := "tcp", address := "127.0.0.1:8080", weight := 10, tags := [] } :=
  ⟨rfl, rfl,
   (WithURL_effect sampleEnv "http://svc.local/api"
      (install sampleConfig sampleRemote noLocks sampleResolver newOptions) "["
      sampleRemote sampleResolver rfl rfl).2.2.2,
   rfl⟩

/-- C10: on a block whose RemoteInfo is `svr`, `WithCluster v` does not panic,
binds the tag `cluster` to `v` (other tags, the instance and the pinned tags
stay), adds `cluster` to the locked tags and nothing else, and leaves the lock
bits, the RPCConfig and the resolver as they are; `WithIDC v` does the same
with the key `idc`. -/
theorem lock_tag_options (v : String) (co : callOptions) (di : String) (svr : RemoteInfo)
    (hs : co.svr = some svr) :
    (((WithCluster v).f co di).panic = none ∧
      ((WithCluster v).f co di).co.svr = some (svr.SetTag "cluster" v) ∧
      (svr.SetTag "cluster" v).tags "cluster" = some v ∧
      ((WithCluster v).f co di).co.locks.Tags = insert "cluster" co.locks.Tags ∧
      (∀ k, k ≠ "cluster" →
        (k ∈ ((WithCluster v).f co di).co.locks.Tags ↔ k ∈ co.locks.Tags)) ∧
      ((WithCluster v).f co di).co.locks.Bits = co.locks.Bits ∧
      ((WithCluster v).f co di).co.configs = co.configs ∧
      ((WithCluster v).f co di).co.httpResolver = co.httpResolver) ∧
    (((WithIDC v).f co di).panic = none ∧
      ((WithIDC v).f co di).co.svr = some (svr.SetTag "idc" v) ∧
      (svr.SetTag "idc" v).tags "idc" = some v ∧
      ((WithIDC v).f co di).co.locks.Tags = insert "idc" co.locks.Tags ∧
      (∀ k, k ≠ "idc" →
        (k ∈ ((WithIDC v).f co di).co.locks.Tags ↔ k ∈ co.locks.Tags)) ∧
      ((WithIDC v).f co di).co.locks.Bits = co.locks.Bits ∧
      ((WithIDC v).f co di).co.configs = co.configs ∧
      ((WithIDC v).f co di).co.httpResolver = co.httpResolver) := by
  refine ⟨⟨?_, ?_, ?_, ?_, ?_, ?_, ?_, ?_⟩, ⟨?_, ?_, ?_, ?_, ?_, ?_, ?_, ?_⟩⟩
  · simp [WithCluster, lockTargetTag, hs]
  · simp [WithCluster, lockTargetTag, hs]
  · simp [RemoteInfo.SetTag]
  · simp [WithCluster, lockTargetTag, hs]
  · intro k hk
    simp [WithCluster, lockTargetTag, hs, Finset.mem_insert, hk]
  · simp [WithCluster, lockTargetTag, hs]
  · simp [WithCluster, lockTargetTag, hs]
  · simp [WithCluster, lockTargetTag, hs]
  · simp [WithIDC, lockTargetTag, hs]
  · simp [WithIDC, lockTargetTag, hs]
  · simp [RemoteInfo.SetTag]
  · simp [WithIDC, lockTargetTag, hs]
  · intro k hk
    simp [WithIDC, lockTargetTag, hs, Finset.mem_insert, hk]
  · simp [WithIDC, lockTargetTag, hs]
  · simp [WithIDC, lockTargetTag, hs]
  · simp [WithIDC, lockTargetTag, hs]

/-- Witness for C10: cluster `c1` and idc `east` on the freshly installed
block. -/
theorem lock_tag_options_witness :
    (install sampleConfig sampleRemote noLocks sampleResolver newOptions).svr =
      some sampleRemote ∧
    ((WithCluster "c1").f
        (install sampleConfig sampleRemote noLocks sampleResolver newOptions) "[").panic = none ∧
    ((WithCluster "c1").f
        (install sampleConfig sampleRemote noLocks sampleResolver newOptions) "[").co.locks.Tags =
      insert "cluster"
        (install sampleConfig sampleRemote noLocks sampleResolver newOptions).locks.Tags ∧
    ((WithIDC "east").f
        (install sampleConfig sampleRemote noLocks sampleResolver newOptions) "[").panic = none :=
  ⟨rfl,
   (lock_tag_options "c1"
      (install sampleConfig sampleRemote noLocks sampleResolver newOptions) "["
      sampleRemote rfl).1.1,
   (lock_tag_options "c1"
      (install sampleConfig sampleRemote noLocks sampleResolver newOptions) "["
      sampleRemote rfl).1.2.2.2.1,
   (lock_tag_options "east"
      (install sampleConfig sampleRemote noLocks sampleResolver newOptions) "["
      sampleRemote rfl).2.1⟩

/-! ## The lock set handed to ApplyLocks -/

/-- What one recognized option that does not panic adds to the lock set. -/
theorem build_step_locks (env : Env) (e : OptionExpr) (co : callOptions) (di : String)
    (hp : ((e.build env).f co di).panic = none) :
    ((e.build env).f co di).co.locks.Bits = co.locks.Bits ||| e.lockBits ∧
    ((e.build env).f co di).co.locks.Tags = co.locks.Tags ∪ e.lockTags := by
  cases e with
  | WithHostPort hostport =>
    simp only [OptionExpr.build, WithHostPort] at hp ⊢
    cases hs : setInstance env co.svr hostport <;>
      simp [hs, OptionExpr.lockBits, OptionExpr.lockTags] at hp ⊢
  | WithURL url =>
    simp only [OptionExpr.build, WithURL] at hp ⊢
    cases hsvr : co.svr with
    | none => simp [hsvr] at hp
    | some s =>
      cases hr : co.httpResolver with
      | none => simp [hsvr, hr] at hp
      | some r =>
        cases hu : r url with
        | error err => simp [hsvr, hr, hu] at hp
        | ok hostport =>
          simp only [hsvr, hr, hu] at hp ⊢
          cases hs : setInstance env (some (s.SetTag env.HTTPURL url)) hostport <;>
            simp [hs, OptionExpr.lockBits, OptionExpr.lockTags] at hp ⊢
  | WithHTTPHost host =>
    simp only [OptionExpr.build, WithHTTPHost] at hp ⊢
    cases hsvr : co.svr <;>
      simp [hsvr, OptionExpr.lockBits, OptionExpr.lockTags] at hp ⊢
  | WithRPCTimeout d =>
    simp only [OptionExpr.build, WithRPCTimeout] at hp ⊢
    cases hc : co.configs <;>
      simp [hc, OptionExpr.lockBits, OptionExpr.lockTags, Nat.lor_assoc] at hp ⊢
  | WithConnectTimeout d =>
    simp only [OptionExpr.build, WithConnectTimeout] at hp ⊢
    cases hc : co.configs <;>
      simp [hc, OptionExpr.lockBits, OptionExpr.lockTags] at hp ⊢
  | WithCluster cluster =>
    simp only [OptionExpr.build, WithCluster, lockTargetTag] at hp ⊢
    cases hsvr : co.svr <;>
      simp [hsvr, OptionExpr.lockBits, OptionExpr.lockTags, Finset.insert_eq,
        Finset.union_comm] at hp ⊢
  | WithIDC idc =>
    simp only [OptionExpr.build, WithIDC, lockTargetTag] at hp ⊢
    cases hsvr : co.svr <;>
      simp [hsvr, OptionExpr.lockBits, OptionExpr.lockTags, Finset.insert_eq,
        Finset.union_comm] at hp ⊢

/-- A loop over recognized options that does not panic leaves the lock set it
found, united with what the options pin. -/
theorem applyLoop_locks (env : Env) (es : List OptionExpr) :
    ∀ (i : Nat) (co : callOptions) (buf : String),
      (applyLoop (es.map (OptionExpr.build env)) i co buf).panic = none →
      (applyLoop (es.map (OptionExpr.build env)) i co buf).co.locks.Bits =
        co.locks.Bits ||| optionBits es ∧
      (applyLoop (es.map (OptionExpr.build env)) i co buf).co.locks.Tags =
        co.locks.Tags ∪ optionTags es := by
  induction es with
  | nil =>
    intro i co buf _
    simp [applyLoop, optionBits, optionTags]
  | cons e es ih =>
    intro i co buf hp
    rw [List.map_cons] at hp ⊢
    obtain ⟨hp1, heq⟩ := applyLoop_cons_ok _ _ i co buf hp
    rw [heq] at hp ⊢
    obtain ⟨hb, ht⟩ := build_step_locks env e co _ hp1
    obtain ⟨ihb, iht⟩ := ih (i + 1) _ _ hp
    rw [ihb, iht, hb, ht]
    simp [optionBits, optionTags, Nat.lor_assoc, Finset.union_assoc]

/-- C11: when the block drawn from the pool has a zeroed lock set and `Apply`
returns, the lock set on which it invokes `ApplyLocks` has as bits the
inherited bits united with the bits the options pin, and as tags the inherited
tags united with the tag keys the options pin; with no options it is the
inherited lock set itself. -/
theorem Apply_locks_union (env : Env) (es : List OptionExpr) (cfg : RPCConfig)
    (svr : RemoteInfo) (L : ConfigLocks) (res : Resolver) (pooled : callOptions)
    (r : Applied)
    (hz : pooled.locks = { Bits := 0, Tags := ∅ })
    (hret : Apply (es.map (OptionExpr.build env)) cfg svr L res pooled = .returned r) :
    r.locks.Bits = L.Bits ||| optionBits es ∧
    r.locks.Tags = L.Tags ∪ optionTags es ∧
    (es = [] → r.locks = L) := by
  unfold Apply at hret
  simp only [string_empty_append] at hret
  cases hp : (applyLoop (es.map (OptionExpr.build env)) 0
      (install cfg svr L res pooled) "[").panic with
  | some p => simp [hp] at hret
  | none =>
    obtain ⟨hb, ht⟩ := applyLoop_locks env es 0 (install cfg svr L res pooled) "[" hp
    simp only [hp] at hret
    injection hret with hret
    subst hret
    have hb0 : (install cfg svr L res pooled).locks.Bits = L.Bits := by
      simp [install, ConfigLocks.Merge, hz]
    have ht0 : (install cfg svr L res pooled).locks.Tags = L.Tags := by
      simp [install, ConfigLocks.Merge, hz]
    rw [hb0] at hb
    rw [ht0] at ht
    refine ⟨hb, ht, ?_⟩
    intro hnil
    subst hnil
    have h1 : (applyLoop ([].map (OptionExpr.build env)) 0
        (install cfg svr L res pooled) "[").co.locks.Bits = L.Bits := by
      rw [hb]; simp [optionBits]
    have h2 : (applyLoop ([].map (OptionExpr.build env)) 0
        (install cfg svr L res pooled) "[").co.locks.Tags = L.Tags := by
      rw [ht]; simp [optionTags]
    cases hl : (applyLoop ([].map (OptionExpr.build env)) 0
        (install cfg svr L res pooled) "[").co.locks with
    | mk b t =>
      rw [hl] at h1 h2
      cases L
      simp_all

/-- Witness for C11: an RPC timeout and a cluster on top of inherited locks
on the connect timeout and the tag `idc`. -/
theorem Apply_locks_union_witness :
    newOptions.locks = { Bits := 0, Tags := ∅ } ∧
    ∃ r, Apply ([OptionExpr.WithRPCTimeout Second, .WithCluster "c1"].map
          (OptionExpr.build sampleEnv))
        sampleConfig sampleRemote inheritedLocks sampleResolver newOptions = .returned r ∧
      r.locks.Bits = inheritedLocks.Bits |||
        optionBits [OptionExpr.WithRPCTimeout Second, .WithCluster "c1"] ∧
      r.locks.Tags = inheritedLocks.Tags ∪
        optionTags [OptionExpr.WithRPCTimeout Second, .WithCluster "c1"] := by
  refine ⟨rfl, ?_⟩
  cases h : Apply ([OptionExpr.WithRPCTimeout Second, .WithCluster "c1"].map
          (OptionExpr.build sampleEnv))
        sampleConfig sampleRemote inheritedLocks sampleResolver newOptions with
  | returned r =>
    have key := Apply_locks_union sampleEnv
      [.WithRPCTimeout Second, .WithCluster "c1"]
      sampleConfig sampleRemote inheritedLocks sampleResolver newOptions r rfl h
    exact ⟨r, rfl, key.1, key.2.1⟩
  | panicked p co buf =>
    have hd : (Apply ([OptionExpr.WithRPCTimeout Second, .WithCluster "c1"].map
          (OptionExpr.build sampleEnv))
        sampleConfig sampleRemote inheritedLocks sampleResolver newOptions).diag? ≠ none := by
      decide
    rw [h] at hd
    exact absurd rfl hd

end callopt

namespace remotecli

open kerrors remote rpcinfo

/-! ## GetConn -/

/-- C12: when the peer has no address, `GetConn` on a wrapper that holds no
connection fails with `ErrNoDestAddress` on the pooled and on the un-pooled
path alike: the trace is left as it was (no `pool.Get`, no `DialTimeout`, no
stats record), no connection is returned and the wrapper still holds none. -/
theorem GetConn_no_address (cm : ConnWrapper) (d : Dialer) (ri : RPCInfo)
    (trace : List Event) (ha : ri.To.Address = none) (hc : cm.conn = none) :
    (cm.GetConn d ri trace).err = some KError.ErrNoDestAddress ∧
    (cm.GetConn d ri trace).conn = none ∧
    (cm.GetConn d ri trace).trace = trace ∧
    (cm.GetConn d ri trace).cm.conn = none := by
  cases hp : cm.connPool with
  | none => simp [ConnWrapper.GetConn, getConnWithDialer, hp, ha]
  | some cp => simp [ConnWrapper.GetConn, getConnWithPool, hp, ha, hc]

/-- Witness for C12: a pooled and an un-pooled wrapper. -/
theorem GetConn_no_address_witness :
    noAddrRI.To.Address = none ∧
    (NewConnWrapper newConnWrapper (some plainPool)).conn = none ∧
    ((NewConnWrapper newConnWrapper (some plainPool)).GetConn sampleDialer noAddrRI []).err =
      some KError.ErrNoDestAddress ∧
    ((NewConnWrapper newConnWrapper none).GetConn sampleDialer noAddrRI []).trace = [] :=
  ⟨rfl, rfl,
   (GetConn_no_address (NewConnWrapper newConnWrapper (some plainPool)) sampleDialer
      noAddrRI [] rfl rfl).1,
   (GetConn_no_address (NewConnWrapper newConnWrapper none) sampleDialer
      noAddrRI [] rfl rfl).2.2.1⟩

/-- C13: when the peer has address `addr`, `GetConn` on a wrapper that holds
no connection appends exactly three events: the record of ClientConnStart, the
attempt (`pool.Get` or `DialTimeout`), and the record of ClientConnFinish.
When the attempt returned an error `e` the finish record has status Error,
`GetConn` fails with `ErrGetConnection` caused by `e` and the wrapper holds no
connection; when it returned none the status is Info, `GetConn` does not fail,
the wrapper holds the connection of the attempt and that connection (its raw
connection, for a pooled long connection) is returned. -/
theorem GetConn_stats (cm : ConnWrapper) (d : Dialer) (ri : RPCInfo)
    (trace : List Event) (addr : Addr)
    (ha : ri.To.Address = some addr) (hc : cm.conn = none) :
    (∀ e, (attempt cm d ri addr).2 = some e →
      (cm.GetConn d ri trace).trace =
        trace ++ [Event.Record .ClientConnStart .StatusInfo none, attemptEvent cm ri addr,
          Event.Record .ClientConnFinish .StatusError (some e)] ∧
      (cm.GetConn d ri trace).err = some (KError.ErrGetConnection.WithCause e) ∧
      (cm.GetConn d ri trace).conn = none ∧
      (cm.GetConn d ri trace).cm.conn = none) ∧
    ((attempt cm d ri addr).2 = none →
      (cm.GetConn d ri trace).trace =
        trace ++ [Event.Record .ClientConnStart .StatusInfo none, attemptEvent cm ri addr,
          Event.Record .ClientConnFinish .StatusInfo none] ∧
      (cm.GetConn d ri trace).err = none ∧
      (cm.GetConn d ri trace).cm.conn = (attempt cm d ri addr).1 ∧
      (cm.GetConn d ri trace).conn = returnedConn cm (attempt cm d ri addr).1) := by
  cases hp : cm.connPool with
  | none =>
    simp only [attempt, attemptEvent, returnedConn, hp]
    cases hd : d addr.Network addr.Str ri.Config.connectTimeout with
    | mk c e =>
      cases e <;> simp [ConnWrapper.GetConn, getConnWithDialer, hp, ha, hd]
  | some cp =>
    simp only [attempt, attemptEvent, returnedConn, hp]
    cases hg : cp.Get addr.Network addr.Str
        { Dialer := d, ConnectTimeout := ri.Config.connectTimeout } with
    | mk c e =>
      cases e with
      | some e => simp [ConnWrapper.GetConn, getConnWithPool, hp, ha, hg, hc]
      | none =>
        cases c with
        | none => simp [ConnWrapper.GetConn, getConnWithPool, hp, ha, hg]
        | some c =>
          cases c <;> simp [ConnWrapper.GetConn, getConnWithPool, hp, ha, hg]

/-- Witness for C13: a pool that times out, and a dialer that connects. -/
theorem GetConn_stats_witness :
    sampleRI.To.Address = some sampleAddr ∧
    (NewConnWrapper newConnWrapper (some failingPool)).conn = none ∧
    ((NewConnWrapper newConnWrapper (some failingPool)).GetConn sampleDialer sampleRI []).err =
      some (KError.ErrGetConnection.WithCause (KError.other "i/o timeout")) ∧
    ((NewConnWrapper newConnWrapper none).GetConn sampleDialer sampleRI []).trace =
      [] ++ [Event.Record .ClientConnStart .StatusInfo none,
        attemptEvent (NewConnWrapper newConnWrapper none) sampleRI sampleAddr,
        Event.Record .ClientConnFinish .StatusInfo none] :=
  ⟨rfl, rfl,
   ((GetConn_stats (NewConnWrapper newConnWrapper (some failingPool)) sampleDialer
      sampleRI [] sampleAddr rfl rfl).1 (KError.other "i/o timeout") rfl).2.1,
   ((GetConn_stats (NewConnWrapper newConnWrapper none) sampleDialer
      sampleRI [] sampleAddr rfl rfl).2 rfl).1⟩

/-! ## ReleaseConn -/

/-- C14 (what the code does): on a pooled wrapper holding connection `c`, with
a nil error and the ConnResetTag present on the peer, `ReleaseConn` hands `c`
to `Discard`, logs, and then hands the same `c` to `Put`. -/
theorem ReleaseConn_reset_discards_then_puts (tag v : String) (cp : ConnPool) (c : Conn)
    (cfg : callopt.RPCConfig) (a : Option Addr) (tags : String → Option String)
    (m : String) (trace : List Event) :
    (ConnWrapper.ReleaseConn tag { connPool := some cp, conn := some c } none
        (some { Config := cfg,
                To := { Address := a,
                        Tag := fun k => if k = tag then some v else tags k,
                        Method := m } }) trace).trace =
      trace ++ [Event.Discard c,
        Event.Debugf "discarding the connection because peer will shutdown later",
        Event.Put c] := by
  simp [ConnWrapper.ReleaseConn]

/-- C16: on a pooled wrapper holding connection `c`, `ReleaseConn` with a
non-nil error appends the single event `Discard c` (so no `Put`) and does not
panic, whatever the RPCInfo is, nil included; the wrapper is zeroed and put
back. -/
theorem ReleaseConn_error_discards (tag : String) (cp : ConnPool) (c : Conn) (e : KError)
    (ri : Option RPCInfo) (trace : List Event) :
    (ConnWrapper.ReleaseConn tag { connPool := some cp, conn := some c } (some e) ri
        trace).trace = trace ++ [Event.Discard c] ∧
    (ConnWrapper.ReleaseConn tag { connPool := some cp, conn := some c } (some e) ri
        trace).panic = none ∧
    (ConnWrapper.ReleaseConn tag { connPool := some cp, conn := some c } (some e) ri
        trace).cm.conn = none ∧
    ∀ ri2 : Option RPCInfo,
      (ConnWrapper.ReleaseConn tag { connPool := some cp, conn := some c } (some e) ri2
        trace).trace =
      (ConnWrapper.ReleaseConn tag { connPool := some cp, conn := some c } (some e) ri
        trace).trace := by
  simp [ConnWrapper.ReleaseConn, ConnWrapper.zero]

theorem long_ne_raw (id : Nat) (raw : Conn) : Conn.long id raw ≠ raw := by
  intro h
  have hs := congrArg sizeOf h
  simp at hs

/-- C17: on a pooled wrapper, when `pool.Get` hands out a connection with the
RawConn capability, `GetConn` returns its raw connection while the wrapper
keeps the pool's connection, which is not the raw one.  A later `ReleaseConn`
hands that pool's connection over: with a non-nil error its trace gains
exactly `Discard` of the pool's connection, with a nil error and an RPCInfo it
ends with `Put` of the pool's connection (after `Discard` of the same
connection and the log entry when the ConnResetTag is present), and no `Put`
or `Discard` it emits is of any other connection.  When `pool.Get` hands out a
connection without the capability, `GetConn` returns that connection itself
and the wrapper keeps it. -/
theorem GetConn_raw_conn (cm : ConnWrapper) (cp : ConnPool) (d : Dialer) (ri : RPCInfo)
    (trace : List Event) (addr : Addr)
    (hp : cm.connPool = some cp) (ha : ri.To.Address = some addr) :
    (∀ id raw,
      cp.Get addr.Network addr.Str
          { Dialer := d, ConnectTimeout := ri.Config.connectTimeout } =
        (some (Conn.long id raw), none) →
      (cm.GetConn d ri trace).conn = some raw ∧
      (cm.GetConn d ri trace).cm.conn = some (Conn.long id raw) ∧
      Conn.long id raw ≠ raw ∧
      (∀ (tag : String) (err : Option KError) (ri2 : Option RPCInfo) (x : Conn),
        (Event.Put x ∈
            (ConnWrapper.ReleaseConn tag (cm.GetConn d ri trace).cm err ri2 []).trace ∨
          Event.Discard x ∈
            (ConnWrapper.ReleaseConn tag (cm.GetConn d ri trace).cm err ri2 []).trace) →
        x = Conn.long id raw) ∧
      (∀ (tag : String) (e : KError) (ri2 : Option RPCInfo) (tr : List Event),
        (ConnWrapper.ReleaseConn tag (cm.GetConn d ri trace).cm (some e) ri2 tr).trace =
          tr ++ [Event.Discard (Conn.long id raw)]) ∧
      (∀ (tag : String) (r : RPCInfo) (tr : List Event),
        (ConnWrapper.ReleaseConn tag (cm.GetConn d ri trace).cm none (some r) tr).trace =
          (if (r.To.Tag tag).isSome then
              tr ++ [Event.Discard (Conn.long id raw)] ++
                [Event.Debugf "discarding the connection because peer will shutdown later"]
            else tr) ++ [Event.Put (Conn.long id raw)])) ∧
    (∀ id,
      cp.Get addr.Network addr.Str
          { Dialer := d, ConnectTimeout := ri.Config.connectTimeout } =
        (some (Conn.plain id), none) →
      (cm.GetConn d ri trace).conn = some (Conn.plain id) ∧
      (cm.GetConn d ri trace).cm.conn = some (Conn.plain id)) := by
  constructor
  · intro id raw hg
    have hcm : (cm.GetConn d ri trace).cm = { connPool := some cp, conn := some (Conn.long id raw) } := by
      simp [ConnWrapper.GetConn, getConnWithPool, hp, ha, hg]
    refine ⟨?_, ?_, long_ne_raw id raw, ?_, ?_, ?_⟩
    · simp [ConnWrapper.GetConn, getConnWithPool, hp, ha, hg]
    · rw [hcm]
    · intro tag err ri2 x hx
      rw [hcm] at hx
      cases err with
      | some e =>
        simp [ConnWrapper.ReleaseConn] at hx
        exact hx
      | none =>
        cases ri2 with
        | none => simp [ConnWrapper.ReleaseConn] at hx
        | some ri2 =>
          cases ht : (ri2.To.Tag tag).isSome <;>
            simp [ConnWrapper.ReleaseConn, ht] at hx
          · exact hx
          · exact hx
    · intro tag e ri2 tr
      rw [hcm]
      simp [ConnWrapper.ReleaseConn]
    · intro tag r tr
      rw [hcm]
      simp [ConnWrapper.ReleaseConn]
  · intro id hg
    simp [ConnWrapper.GetConn, getConnWithPool, hp, ha, hg]

/-- Witness for C17: the pool handing out a long connection, released after an
error. -/
theorem GetConn_raw_conn_witness :
    (NewConnWrapper newConnWrapper (some longPool)).connPool = some longPool ∧
    sampleRI.To.Address = some sampleAddr ∧
    ((NewConnWrapper newConnWrapper (some longPool)).GetConn sampleDialer sampleRI []).conn =
      some (Conn.plain 2) ∧
    ((NewConnWrapper newConnWrapper (some longPool)).GetConn sampleDialer sampleRI []).cm.conn =
      some (Conn.long 1 (Conn.plain 2)) ∧
    (ConnWrapper.ReleaseConn "crrst"
        ((NewConnWrapper newConnWrapper (some longPool)).GetConn sampleDialer sampleRI []).cm
        (some (KError.other "context canceled")) none []).trace =
      [] ++ [Event.Discard (Conn.long 1 (Conn.plain 2))] :=
  ⟨rfl, rfl,
   ((GetConn_raw_conn (NewConnWrapper newConnWrapper (some longPool)) longPool sampleDialer
      sampleRI [] sampleAddr rfl rfl).1 1 (Conn.plain 2) rfl).1,
   ((GetConn_raw_conn (NewConnWrapper newConnWrapper (some longPool)) longPool sampleDialer
      sampleRI [] sampleAddr rfl rfl).1 1 (Conn.plain 2) rfl).2.1,
   ((GetConn_raw_conn (NewConnWrapper newConnWrapper (some longPool)) longPool sampleDialer
      sampleRI [] sampleAddr rfl rfl).1 1 (Conn.plain 2) rfl).2.2.2.2.1
      "crrst" (KError.other "context canceled") none []⟩

end remotecli

namespace trans

open kerrors remote

/-- C18: `Read` returns `ErrRPCTimeout` caused by `e` when `Decode` returns an
error `e` that the extension classifies as a timeout, returns `e` itself when
`Decode` returns an error `e` that it does not, and returns no error when
`Decode` returns none; the deferred `ReleaseBuffer` and the ReadFinish record
see the error returned. -/
theorem Read_error_mapping (t : cliTransHandler) (recvMsg : Message) (trace : List Event) :
    (∀ e, t.codec.Decode recvMsg (t.ext.NewReadByteBuffer recvMsg) = some e →
      t.ext.IsTimeoutErr e = true →
      (t.Read recvMsg trace).1 = some (KError.ErrRPCTimeout.WithCause e)) ∧
    (∀ e, t.codec.Decode recvMsg (t.ext.NewReadByteBuffer recvMsg) = some e →
      t.ext.IsTimeoutErr e = false →
      (t.Read recvMsg trace).1 = some e) ∧
    (t.codec.Decode recvMsg (t.ext.NewReadByteBuffer recvMsg) = none →
      (t.Read recvMsg trace).1 = none) ∧
    (t.Read recvMsg trace).2 =
      trace ++ [Event.Record .ReadStart none, Event.SetReadTimeout, Event.NewReadByteBuffer,
        Event.SetPayloadCodec, Event.Decode, Event.ReleaseBuffer (t.Read recvMsg trace).1,
        Event.Record .ReadFinish (t.Read recvMsg trace).1] := by
  refine ⟨?_, ?_, ?_, ?_⟩
  · intro e hd ht
    simp [cliTransHandler.Read, hd, ht]
  · intro e hd ht
    simp [cliTransHandler.Read, hd, ht]
  · intro hd
    simp [cliTransHandler.Read, hd]
  · simp [cliTransHandler.Read]

/-- Witness for C18: a decode that times out, and a decode that fails on a
malformed frame. -/
theorem Read_error_mapping_witness :
    (cliTransHandler.Read { codec := timeoutCodec, ext := timeoutExt } sampleMsg []).1 =
      some (KError.ErrRPCTimeout.WithCause (KError.other "i/o timeout")) ∧
    (cliTransHandler.Read { codec := brokenFrameCodec, ext := timeoutExt } sampleMsg []).1 =
      some (KError.other "bad frame") :=
  ⟨(Read_error_mapping { codec := timeoutCodec, ext := timeoutExt } sampleMsg []).1
      (KError.other "i/o timeout") rfl rfl,
   (Read_error_mapping { codec := brokenFrameCodec, ext := timeoutExt } sampleMsg []).2.1
      (KError.other "bad frame") rfl rfl⟩

/-- C19 (what the code does): `Write` returns the error of `Encode`, or else
the result of `Flush`, as it is, whatever the extension says of it; with an
`Encode` or a `Flush` that times out, the timeout error itself comes back, not
`ErrRPCTimeout`. -/
theorem Write_returns_inner_error :
    (∀ (t : cliTransHandler) (sendMsg : Message) (trace : List Event),
      (t.Write sendMsg trace).1 =
        match (t.codec.Encode sendMsg (t.ext.NewWriteByteBuffer sendMsg)).2 with
        | some err => some err
        | none => (t.codec.Encode sendMsg (t.ext.NewWriteByteBuffer sendMsg)).1.Flush) ∧
    timeoutExt.IsTimeoutErr (KError.other "i/o timeout") = true ∧
    (cliTransHandler.Write { codec := timeoutCodec, ext := timeoutExt } sampleMsg []).1 =
      some (KError.other "i/o timeout") ∧
    (cliTransHandler.Write { codec := brokenFrameCodec, ext := flushTimeoutExt } sampleMsg []).1 =
      some (KError.other "i/o timeout") := by
  refine ⟨?_, rfl, rfl, rfl⟩
  intro t sendMsg trace
  simp only [cliTransHandler.Write]
  cases (t.codec.Encode sendMsg (t.ext.NewWriteByteBuffer sendMsg)).2 <;> rfl

end trans

namespace bound

open kerrors remote

/-- C20 (as the code has it): on the server side, when every `ReadMeta` has
succeeded, `OnMessage` returns without error; for a result that is not an
Exception the context returned is the one the handlers left, with the peer's
method name stored under the method key and the transfer-forward applied (no
transient pair left, the former transient pairs now transient-upstream); for
an Exception result it is the context the handlers left, as it is. -/
theorem OnMessage_server (h : transMetaHandler) (ctx : Context) (a res : Message)
    (hrole : a.RPCRole = RPCRole.Server)
    (hok : (readLoop h.mhs ctx a).2 = none) :
    (h.OnMessage ctx (some a) (some res)).err = none ∧
    (h.OnMessage ctx (some a) (some res)).panic = none ∧
    (res.MessageType ≠ MessageType.Exception →
      (h.OnMessage ctx (some a) (some res)).ctx =
        TransferForward ((readLoop h.mhs ctx a).1.WithMethod a.RPCInfo.To.Method) ∧
      (h.OnMessage ctx (some a) (some res)).ctx.method = some a.RPCInfo.To.Method ∧
      (h.OnMessage ctx (some a) (some res)).ctx.transient = [] ∧
      (h.OnMessage ctx (some a) (some res)).ctx.upstream = (readLoop h.mhs ctx a).1.transient) ∧
    (res.MessageType = MessageType.Exception →
      (h.OnMessage ctx (some a) (some res)).ctx = (readLoop h.mhs ctx a).1) := by
  cases hr : readLoop h.mhs ctx a with
  | mk c e =>
    rw [hr] at hok
    simp only at hok
    subst hok
    by_cases hm : res.MessageType = MessageType.Exception
    · simp [transMetaHandler.OnMessage, getValidMsg, hrole, hr, hm]
    · simp [transMetaHandler.OnMessage, getValidMsg, hrole, hr, hm, TransferForward,
        Context.WithMethod]

/-- Witness for C20 (amended): a reply result, with one handler. -/
theorem OnMessage_server_witness :
    serverArgs.RPCRole = RPCRole.Server ∧
    (readLoop [traceHandler] sampleCtx serverArgs).2 = none ∧
    (transMetaHandler.OnMessage { mhs := [traceHandler] } sampleCtx (some serverArgs)
        (some replyResult)).ctx =
      { method := some "Echo", transient := [], upstream := [("trace", "t1"), ("k", "v")] } :=
  ⟨rfl, rfl,
   ((OnMessage_server { mhs := [traceHandler] } sampleCtx serverArgs replyResult rfl rfl).2.2.1
      (by decide)).1⟩

/-- C20 (counterexample): for an Exception result on the server side the
context returned carries no method name and its transient pairs have not been
forwarded. -/
theorem OnMessage_server_exception :
    serverArgs.RPCRole = RPCRole.Server ∧
    (readLoop [traceHandler] sampleCtx serverArgs).2 = none ∧
    (transMetaHandler.OnMessage { mhs := [traceHandler] } sampleCtx (some serverArgs)
        (some exceptionResult)).ctx.method = none ∧
    (transMetaHandler.OnMessage { mhs := [traceHandler] } sampleCtx (some serverArgs)
        (some exceptionResult)).ctx.transient = [("trace", "t1"), ("k", "v")] ∧
    (transMetaHandler.OnMessage { mhs := [traceHandler] } sampleCtx (some serverArgs)
        (some exceptionResult)).ctx.upstream = [("old", "x")] := by
  refine ⟨rfl, rfl, rfl, rfl, rfl⟩

end bound

namespace acl

open kerrors

theorem firstReason_eq_none {Req : Type} (rules : List (RejectFunc Req)) (request : Req) :
    firstReason rules request = none ↔ ∀ r ∈ rules, r request = none := by
  induction rules with
  | nil => simp [firstReason]
  | cons r rest ih =>
    cases hr : r request with
    | none => simp [firstReason, hr, ih]
    | some reason => simp [firstReason, hr]

theorem withCause_ErrACL_is (reason : KError) :
    (KError.ErrACL.WithCause reason).Is KError.ErrACL = true := by
  simp [KError.WithCause, KError.Is]

/-- C21: for every list of reject rules, inner endpoint and request: when every
rule returns a nil reason (in particular when there is no rule) the call
invokes the inner endpoint once and returns its error unchanged; when some
rule returns a non-nil reason the call returns an error that matches `ErrACL`
and the inner endpoint is not invoked. -/
theorem NewACLMiddleware_contract {Req : Type} (rules : List (RejectFunc Req))
    (next : Endpoint Req) (request : Req) :
    ((∀ r ∈ rules, r request = none) →
      NewACLMiddleware rules next request = { err := next request, innerCalls := 1 }) ∧
    ((∃ r ∈ rules, r request ≠ none) →
      ∃ e, (NewACLMiddleware rules next request).err = some e ∧
        e.Is KError.ErrACL = true ∧
        (NewACLMiddleware rules next request).innerCalls = 0) ∧
    NewACLMiddleware [] next request = { err := next request, innerCalls := 1 } := by
  refine ⟨?_, ?_, ?_⟩
  · intro h
    have hf := (firstReason_eq_none rules request).2 h
    simp [NewACLMiddleware, hf]
  · intro h
    cases hf : firstReason rules request with
    | none =>
      obtain ⟨r, hr, hne⟩ := h
      exact absurd ((firstReason_eq_none rules request).1 hf r hr) hne
    | some reason =>
      exact ⟨KError.ErrACL.WithCause reason, by simp [NewACLMiddleware, hf],
        withCause_ErrACL_is reason, by simp [NewACLMiddleware, hf]⟩
  · simp [NewACLMiddleware, firstReason]

/-- Witness for C21: the three cases of `TestNewACLMiddleware`. -/
theorem NewACLMiddleware_contract_witness :
    NewACLMiddleware [] invoke () = { err := some errFake, innerCalls := 1 } ∧
    NewACLMiddleware [pass] invoke () = { err := some errFake, innerCalls := 1 } ∧
    ∃ e, (NewACLMiddleware [reject] invoke ()).err = some e ∧
      e.Is KError.ErrACL = true ∧ (NewACLMiddleware [reject] invoke ()).innerCalls = 0 :=
  ⟨(NewACLMiddleware_contract [] invoke ()).2.2,
   (NewACLMiddleware_contract [pass] invoke ()).1 (by simp [pass]),
   (NewACLMiddleware_contract [reject] invoke ()).2.1 ⟨reject, by simp, by simp [reject]⟩⟩

end acl

namespace lbcache

/-- C22: for every resolver name, balancer name and cache options, `cacheKey`
is the resolver name, `|`, the balancer name, `|`, and the options printed as
`{<refresh> <expire>}` with both durations in Go duration notation; and
`cacheKey("hello", "world", {15s, 5m})` is `hello|world|{15s 5m0s}`. -/
theorem cacheKey_format (r l : String) (o : Options) :
    cacheKey r l o =
      r ++ "|" ++ l ++ "|" ++
        ("\x7b" ++ gotime.durationString o.RefreshInterval ++ " " ++
          gotime.durationString o.ExpireInterval ++ "\x7d") ∧
    cacheKey "hello" "world"
        { RefreshInterval := 15 * callopt.Second, ExpireInterval := 5 * gotime.Minute } =
      "hello|world|{15s 5m0s}" := by
  refine ⟨rfl, ?_⟩
  decide

end lbcache

namespace server

/-- C23 (what the code does): `WithExitWaitTime t` has on the options the very
effect of `WithMaxConnIdleTime t`; for `t = 5s` on options with a one-second
exit wait and a ten-minute idle time it leaves the exit wait at one second and
sets the idle time to five seconds. -/
theorem WithExitWaitTime_sets_idle_time :
    (∀ (t : callopt.Duration) (o : Options) (di : Slice),
      ((WithExitWaitTime t).F o di).1 = ((WithMaxConnIdleTime t).F o di).1) ∧
    ((WithExitWaitTime (5 * callopt.Second)).F sampleOptions []).1.RemoteOpt.ExitWaitTime =
      callopt.Second ∧
    sampleOptions.RemoteOpt.MaxConnectionIdleTime = 10 * gotime.Minute ∧
    ((WithExitWaitTime (5 * callopt.Second)).F sampleOptions
        []).1.RemoteOpt.MaxConnectionIdleTime = 5 * callopt.Second ∧
    ((WithExitWaitTime (5 * callopt.Second)).F sampleOptions []).2 =
      ["WithExitWaitTime(5s)"] := by
  refine ⟨?_, by decide, rfl, by decide, by decide⟩
  intro t o di
  by_cases h : t > 0 <;> simp [WithExitWaitTime, WithMaxConnIdleTime, h]

end server

namespace bound

open kerrors remote

theorem writeLoop_ok (hs : List MetaHandler) (ctx : Context) (msg : Message)
    (h : chainOk MetaHandler.WriteMeta hs ctx msg) :
    writeLoop hs ctx msg = (chainCtx MetaHandler.WriteMeta hs ctx msg, none) := by
  induction hs generalizing ctx with
  | nil => rfl
  | cons hdlr rest ih =>
    obtain ⟨h1, h2⟩ := h
    cases hw : hdlr.WriteMeta ctx msg with
    | mk c e =>
      rw [hw] at h1 h2
      simp only at h1 h2
      subst h1
      simp only [writeLoop, hw, chainCtx]
      exact ih c h2

theorem writeLoop_fail (pre post : List MetaHandler) (hdlr : MetaHandler) (ctx : Context)
    (msg : Message) (e : KError)
    (h : chainOk MetaHandler.WriteMeta pre ctx msg)
    (hf : (hdlr.WriteMeta (chainCtx MetaHandler.WriteMeta pre ctx msg) msg).2 = some e) :
    writeLoop (pre ++ hdlr :: post) ctx msg =
      ((hdlr.WriteMeta (chainCtx MetaHandler.WriteMeta pre ctx msg) msg).1, some e) := by
  induction pre generalizing ctx with
  | nil =>
    simp only [chainCtx] at hf
    cases hw : hdlr.WriteMeta ctx msg with
    | mk c e1 =>
      rw [hw] at hf
      simp only at hf
      subst hf
      simp [writeLoop, hw, chainCtx]
  | cons p rest ih =>
    obtain ⟨h1, h2⟩ := h
    cases hw : p.WriteMeta ctx msg with
    | mk c e1 =>
      rw [hw] at h1 h2
      simp only at h1 h2
      subst h1
      simp only [chainCtx, hw] at hf
      simp only [List.cons_append, writeLoop, hw, chainCtx]
      exact ih c h2 hf

theorem readLoop_ok (hs : List MetaHandler) (ctx : Context) (msg : Message)
    (h : chainOk MetaHandler.ReadMeta hs ctx msg) :
    readLoop hs ctx msg = (chainCtx MetaHandler.ReadMeta hs ctx msg, none) := by
  induction hs generalizing ctx with
  | nil => rfl
  | cons hdlr rest ih =>
    obtain ⟨h1, h2⟩ := h
    cases hw : hdlr.ReadMeta ctx msg with
    | mk c e =>
      rw [hw] at h1 h2
      simp only at h1 h2
      subst h1
      simp only [readLoop, hw, chainCtx]
      exact ih c h2

theorem readLoop_fail (pre post : List MetaHandler) (hdlr : MetaHandler) (ctx : Context)
    (msg : Message) (e : KError)
    (h : chainOk MetaHandler.ReadMeta pre ctx msg)
    (hf : (hdlr.ReadMeta (chainCtx MetaHandler.ReadMeta pre ctx msg) msg).2 = some e) :
    readLoop (pre ++ hdlr :: post) ctx msg =
      ((hdlr.ReadMeta (chainCtx MetaHandler.ReadMeta pre ctx msg) msg).1, some e) := by
  induction pre generalizing ctx with
  | nil =>
    simp only [chainCtx] at hf
    cases hw : hdlr.ReadMeta ctx msg with
    | mk c e1 =>
      rw [hw] at hf
      simp only at hf
      subst hf
      simp [readLoop, hw, chainCtx]
  | cons p rest ih =>
    obtain ⟨h1, h2⟩ := h
    cases hw : p.ReadMeta ctx msg with
    | mk c e1 =>
      rw [hw] at h1 h2
      simp only at h1 h2
      subst h1
      simp only [chainCtx, hw] at hf
      simp only [List.cons_append, readLoop, hw, chainCtx]
      exact ih c h2 hf

/-- C24: `Write` runs `WriteMeta` over the handlers first to last, each on the
context the previous one returned.  When the handlers `pre` all succeed,
`Write` over `pre` returns the context the last one returned (the input
context for the empty list) and no error; and when the next handler `hdlr`
then fails with `e`, `Write` over `pre`, `hdlr` and any further handlers
`post` returns the context and error of `hdlr`, whatever `post` is.
`OnMessage` does the same with `ReadMeta` on the message `getValidMsg`
selects: the failing handler's context and error, and on the client side
after all succeed the last handler's context and no error. -/
theorem meta_handlers_chain (pre post : List MetaHandler) (hdlr : MetaHandler)
    (ctx : Context) (msg : Message) (args result : Option Message) (isServer : Bool)
    (hv : getValidMsg args result = (some msg, isServer)) :
    transMetaHandler.Write { mhs := [] } ctx msg = (ctx, none) ∧
    (chainOk MetaHandler.WriteMeta pre ctx msg →
      transMetaHandler.Write { mhs := pre } ctx msg =
        (chainCtx MetaHandler.WriteMeta pre ctx msg, none)) ∧
    (chainOk MetaHandler.WriteMeta pre ctx msg →
      ∀ e, (hdlr.WriteMeta (chainCtx MetaHandler.WriteMeta pre ctx msg) msg).2 = some e →
        transMetaHandler.Write { mhs := pre ++ hdlr :: post } ctx msg =
          ((hdlr.WriteMeta (chainCtx MetaHandler.WriteMeta pre ctx msg) msg).1, some e)) ∧
    (chainOk MetaHandler.ReadMeta pre ctx msg →
      ∀ e, (hdlr.ReadMeta (chainCtx MetaHandler.ReadMeta pre ctx msg) msg).2 = some e →
        transMetaHandler.OnMessage { mhs := pre ++ hdlr :: post } ctx args result =
          { ctx := (hdlr.ReadMeta (chainCtx MetaHandler.ReadMeta pre ctx msg) msg).1,
            err := some e, panic := none }) ∧
    (chainOk MetaHandler.ReadMeta pre ctx msg → isServer = false →
      transMetaHandler.OnMessage { mhs := pre } ctx args result =
        { ctx := chainCtx MetaHandler.ReadMeta pre ctx msg, err := none, panic := none }) := by
  refine ⟨rfl, ?_, ?_, ?_, ?_⟩
  · intro h
    exact writeLoop_ok pre ctx msg h
  · intro h e hf
    exact writeLoop_fail pre post hdlr ctx msg e h hf
  · intro h e hf
    simp only [transMetaHandler.OnMessage, hv, readLoop_fail pre post hdlr ctx msg e h hf]
  · intro h hs
    subst hs
    simp [transMetaHandler.OnMessage, hv, readLoop_ok pre ctx msg h]

/-- Witness for C24: a handler that succeeds, then one that fails, then one
more, on the client side. -/
theorem meta_handlers_chain_witness :
    getValidMsg none (some replyResult) = (some replyResult, false) ∧
    chainOk MetaHandler.WriteMeta [traceHandler] sampleCtx replyResult ∧
    transMetaHandler.Write { mhs := [traceHandler] ++ failingHandler :: [traceHandler] }
        sampleCtx replyResult =
      ((failingHandler.WriteMeta
          (chainCtx MetaHandler.WriteMeta [traceHandler] sampleCtx replyResult) replyResult).1,
        some (KError.other "no meta")) ∧
    transMetaHandler.OnMessage { mhs := [traceHandler] } sampleCtx none (some replyResult) =
      { ctx := chainCtx MetaHandler.ReadMeta [traceHandler] sampleCtx replyResult,
        err := none, panic := none } :=
  ⟨rfl, ⟨rfl, trivial⟩,
   (meta_handlers_chain [traceHandler] [traceHandler] failingHandler sampleCtx replyResult
      none (some replyResult) false rfl).2.2.1 ⟨rfl, trivial⟩ (KError.other "no meta") rfl,
   (meta_handlers_chain [traceHandler] [traceHandler] failingHandler sampleCtx replyResult
      none (some replyResult) false rfl).2.2.2.2 ⟨rfl, trivial⟩ rfl⟩

end bound

namespace callopt

/-- C25 (what the code does): `Recycle` sets `configs` and `svr` to nil and
clears the lock set, and leaves `httpResolver` as it was; the block `Apply`
puts back into the pool still holds the resolver of the call. -/
theorem Recycle_keeps_httpResolver :
    (∀ co : callOptions,
      co.Recycle.configs = none ∧ co.Recycle.svr = none ∧
      co.Recycle.locks = { Bits := 0, Tags := ∅ } ∧
      co.Recycle.httpResolver = co.httpResolver) ∧
    (install sampleConfig sampleRemote noLocks sampleResolver
        newOptions).Recycle.httpResolver.isSome = true ∧
    (match Apply [] sampleConfig sampleRemote noLocks sampleResolver newOptions with
      | .returned r => r.recycled.httpResolver.isSome
      | .panicked _ _ _ => false) = true := by
  refine ⟨?_, rfl, rfl⟩
  intro co
  simp [callOptions.Recycle, callOptions.zero, ConfigLocks.Zero]

end callopt

namespace remotecli

open kerrors remote rpcinfo

/-- C26 (what the code does): on a pooled wrapper holding a connection,
`ReleaseConn` with a nil error and a nil RPCInfo panics on the nil RPCInfo,
before any `Put` or `Discard`; in every other state (no connection, no pool,
or a non-nil error) it completes. -/
theorem ReleaseConn_nil_rpcinfo :
    (∀ (tag : String) (cp : ConnPool) (c : Conn) (trace : List Event),
      (ConnWrapper.ReleaseConn tag { connPool := some cp, conn := some c } none none
          trace).panic = some callopt.nilDeref ∧
      (ConnWrapper.ReleaseConn tag { connPool := some cp, conn := some c } none none
          trace).trace = trace) ∧
    (∀ (tag : String) (cm : ConnWrapper) (err : Option KError) (trace : List Event),
      (cm.conn = none ∨ cm.connPool = none ∨ err ≠ none) →
      (ConnWrapper.ReleaseConn tag cm err none trace).panic = none) ∧
    (ConnWrapper.ReleaseConn "crrst" { connPool := some plainPool, conn := some (Conn.plain 1) }
        none none []).panic = some callopt.nilDeref := by
  refine ⟨?_, ?_, rfl⟩
  · intro tag cp c trace
    simp [ConnWrapper.ReleaseConn]
  · intro tag cm err trace h
    cases hc : cm.conn with
    | none => simp [ConnWrapper.ReleaseConn, hc]
    | some c =>
      cases hp : cm.connPool with
      | none => simp [ConnWrapper.ReleaseConn, hc, hp]
      | some cp =>
        cases err with
        | some e => simp [ConnWrapper.ReleaseConn, hc, hp]
        | none =>
          rcases h with h | h | h
          · simp [hc] at h
          · simp [hp] at h
          · exact absurd rfl h

end remotecli

namespace generator

theorem allMethodsLoop_eq (base : Option ServiceInfo) (ms : List MethodInfo) :
    allMethodsLoop base ms =
      ((baseChain base).reverse.map ServiceInfo.Methods).flatten ++ ms := by
  induction base, ms using allMethodsLoop.induct with
  | case1 ms => simp [allMethodsLoop, baseChain]
  | case2 name base methods ms ih =>
    rw [allMethodsLoop, ih]
    simp [baseChain, ServiceInfo.Methods]

/-- C27: `AllMethods` is a total function on services (whose base chain is
finite); it returns the `Methods` lists of the base chain, most distant base
first, followed by the service's own `Methods`, each list in its own order;
its length is the sum of the lengths of these lists; and for a service without
`Base` it is the service's `Methods`. -/
theorem AllMethods_chain (s : ServiceInfo) :
    s.AllMethods =
      ((baseChain s.Base).reverse.map ServiceInfo.Methods).flatten ++ s.Methods ∧
    s.AllMethods.length =
      ((baseChain s.Base).map (fun b => b.Methods.length)).sum + s.Methods.length ∧
    (s.Base = none → s.AllMethods = s.Methods) ∧
    leafService.AllMethods =
      [⟨"Base", "Ping", false⟩, ⟨"Mid", "Get", false⟩, ⟨"Mid", "Put", true⟩,
        ⟨"Leaf", "Echo", false⟩] := by
  have h := allMethodsLoop_eq s.Base s.Methods
  refine ⟨h, ?_, ?_, ?_⟩
  · unfold ServiceInfo.AllMethods
    rw [h]
    simp [List.length_flatten, List.map_reverse, List.sum_reverse, Function.comp_def]
  · intro hb
    unfold ServiceInfo.AllMethods
    rw [hb]
    simp [allMethodsLoop]
  · simp [ServiceInfo.AllMethods, allMethodsLoop, leafService, midService, baseService,
      ServiceInfo.Base, ServiceInfo.Methods]

end generator
